import Mathlib

/-!
Verification of the zodirectus generator core: a shallow embedding of the
string/naming utilities, field classification chains, schema/type emitters,
dependency-graph builder and cycle detector, together with theorems about
the behaviour of these functions.  All definitions are translated from the
TypeScript sources; string-returning functions build the same text the
sources build.  JavaScript-specific behaviours (truthiness of strings,
`String.prototype.split` semantics, global regex matching) are modelled by
small explicit helper functions.
-/

namespace JsStr

/-- Characters the `[-_\s]+` splitter treats as separators. -/
def isSepChar (c : Char) : Bool :=
  c = '-' || c = '_' || c.isWhitespace

/-- Lowercase a string character-wise (ASCII, as in JS `toLowerCase` for
the inputs this program handles). -/
def lower (s : String) : String :=
  String.mk (s.data.map Char.toLower)

/-- Uppercase a string character-wise. -/
def upper (s : String) : String :=
  String.mk (s.data.map Char.toUpper)

/-- Test whether `p` is a prefix of `s` (JS `startsWith`). -/
def starts (s p : String) : Bool :=
  p.data.isPrefixOf s.data

/-- Test whether `p` is a suffix of `s` (JS `endsWith`). -/
def ends (s p : String) : Bool :=
  p.data.isSuffixOf s.data

/-- Scan for an occurrence of `pat` anywhere in the list. -/
def hasAux (pat : List Char) : List Char → Bool
  | [] => pat.isEmpty
  | c :: rest => pat.isPrefixOf (c :: rest) || hasAux pat rest

/-- Test whether `t` occurs inside `s` (JS `includes`). -/
def has (s t : String) : Bool :=
  hasAux t.data s.data

/-- Drop the last `n` characters (JS `slice(0, -n)`). -/
def dropRight (s : String) (n : Nat) : String :=
  String.mk (s.data.take (s.data.length - n))

/-- Drop the first `n` characters (JS `slice(n)`). -/
def drop (s : String) (n : Nat) : String :=
  String.mk (s.data.drop n)

/-- Length in characters. -/
def len (s : String) : Nat := s.data.length

/-- Replace the first occurrence of `pat` in `s` by `rep`
(JS `String.prototype.replace` with a string pattern); helper on
character lists, scanning left to right. -/
def replaceFirstAux (rep pat : List Char) : List Char → List Char
  | [] => []
  | c :: rest =>
    if pat.isPrefixOf (c :: rest) then rep ++ (c :: rest).drop pat.length
    else c :: replaceFirstAux rep pat rest

/-- Replace the first occurrence of `pat` in `s` by `rep`. -/
def replaceFirst (s pat rep : String) : String :=
  String.mk (replaceFirstAux rep.data pat.data s.data)

/-- Split on a single separator character, keeping empty pieces
(JS `split` with a one-character string separator). -/
def splitCharAux (sep : Char) : List Char → List Char → List String
  | [], acc => [String.mk acc.reverse]
  | c :: rest, acc =>
    if c = sep then String.mk acc.reverse :: splitCharAux sep rest []
    else splitCharAux sep rest (c :: acc)

/-- Split on a single separator character, keeping empty pieces. -/
def splitChar (s : String) (sep : Char) : List String :=
  splitCharAux sep s.data []

/-- Split on maximal runs of separator characters, as JS
`split(/[-_\s]+/)` does: runs collapse, and a leading or trailing run
produces an empty piece.  The second argument is `some acc` while a piece
is being accumulated and `none` right after a separator run. -/
def splitRunsAux : List Char → Option (List Char) → List String
  | [], some acc => [String.mk acc.reverse]
  | [], none => [""]
  | c :: rest, some acc =>
    if isSepChar c then String.mk acc.reverse :: splitRunsAux rest none
    else splitRunsAux rest (some (c :: acc))
  | c :: rest, none =>
    if isSepChar c then splitRunsAux rest none
    else splitRunsAux rest (some [c])

/-- Split on maximal runs of `[-_\s]` separators. -/
def splitRuns (s : String) : List String :=
  splitRunsAux s.data (some [])

/-- Split before every uppercase character except at position 0, as JS
`split(/(?=[A-Z])/)` does. -/
def splitCapsAux : List Char → List Char → List (List Char)
  | [], acc => [acc.reverse]
  | c :: rest, acc =>
    if c.isUpper && acc ≠ [] then acc.reverse :: splitCapsAux rest [c]
    else splitCapsAux rest (c :: acc)

/-- Split before every uppercase character except at position 0. -/
def splitCaps (s : String) : List String :=
  match s.data with
  | [] => [""]
  | c :: rest => (splitCapsAux rest [c]).map String.mk

/-- Truthiness of an optional string: JS treats `undefined` and the empty
string as falsy. -/
def optTruthy : Option String → Option String
  | some s => if s = "" then none else some s
  | none => none

/-- Boolean truthiness of an optional string. -/
def isTruthy (o : Option String) : Bool :=
  (optTruthy o).isSome

end JsStr

namespace StringUtils

/-- Capitalize the first character of a piece and lowercase the rest, as
each piece of `toPascalCase` is treated. -/
def pascalPiece (s : String) : String :=
  match s.data with
  | [] => ""
  | c :: rest => String.mk (c.toUpper :: rest.map Char.toLower)

/-- StringUtils.toPascalCase: split on `[-_\s]+`, capitalize each piece's
first letter, lowercase the rest, and join. -/
def toPascalCase (str : String) : String :=
  String.join ((JsStr.splitRuns str).map pascalPiece)

/-- One pass of `replace(/([a-z])([A-Z])/g, ...)`: insert a hyphen between
a lowercase character and the uppercase character after it, resuming the
scan after each match. -/
def kebabStep1 : List Char → List Char
  | a :: b :: rest =>
    if a.isLower && b.isUpper then a :: '-' :: b :: kebabStep1 rest
    else a :: kebabStep1 (b :: rest)
  | l => l

/-- One pass of `replace(/([A-Z])([A-Z][a-z])/g, ...)`: insert a hyphen
between an uppercase character and an uppercase-then-lowercase pair. -/
def kebabStep2 : List Char → List Char
  | a :: b :: c :: rest =>
    if a.isUpper && b.isUpper && c.isLower then a :: '-' :: b :: c :: kebabStep2 rest
    else a :: kebabStep2 (b :: c :: rest)
  | l => l

/-- One pass of `replace(/[\s_]+/g, '-')`: collapse runs of whitespace or
underscores into a single hyphen.  The flag records whether the previous
character belonged to a separator run. -/
def kebabStep3 : List Char → Bool → List Char
  | [], _ => []
  | c :: rest, inRun =>
    if c.isWhitespace || c = '_' then
      if inRun then kebabStep3 rest true else '-' :: kebabStep3 rest true
    else c :: kebabStep3 rest false

/-- StringUtils.toKebabCase. -/
def toKebabCase (str : String) : String :=
  JsStr.lower (String.mk (kebabStep3 (kebabStep2 (kebabStep1 str.data)) false))

/-- The irregular plural table of StringUtils.toSingular. -/
def irregularPlurals : List (String × String) :=
  [("children", "child"), ("people", "person"), ("men", "man"),
   ("women", "woman"), ("feet", "foot"), ("teeth", "tooth"),
   ("mice", "mouse"), ("geese", "goose"), ("oxen", "ox"),
   ("data", "datum"), ("media", "medium"), ("criteria", "criterion"),
   ("phenomena", "phenomenon"), ("indices", "index"),
   ("vertices", "vertex"), ("matrices", "matrix"),
   ("analyses", "analysis"), ("bases", "base"),
   ("diagnoses", "diagnosis"), ("theses", "thesis"),
   ("crises", "crisis"), ("oases", "oasis")]

/-- StringUtils.capitalizeFirst: re-case the computed singular to match
the original word's casing pattern. -/
def capitalizeFirst (singular original : String) : String :=
  if original = JsStr.upper original then JsStr.upper singular
  else
    match original.data with
    | [] => singular
    | c :: _ =>
      if c.isUpper then
        let singularLower := JsStr.lower singular
        if JsStr.has singularLower "directus" then
          JsStr.replaceFirst singularLower "directus" "Directus"
        else
          match singular.data with
          | [] => singular
          | d :: rest => String.mk (d.toUpper :: rest)
      else singular

/-- Test that a character list is one capitalized word: an uppercase
first character followed by lowercase characters only.  This is the
language of the regex fragment `[A-Z][a-z]*s?` (the optional `s` is
itself lowercase, so it adds nothing). -/
def isCapWord : List Char → Bool
  | [] => false
  | c :: rest => c.isUpper && rest.all Char.isLower

/-- Find the first index at which `pat` occurs followed by a tail
accepted by `ok`; returns the part before the occurrence and the tail
after `pat`.  This models anchored-regex search such as
`word.match(/Directus([A-Z][a-z]*s?)$/)`. -/
def findTailMatchAux (pat : List Char) (ok : List Char → Bool) :
    List Char → List Char → Option (List Char × List Char)
  | acc, [] =>
    if pat.isPrefixOf [] && ok [] then some (acc.reverse, []) else none
  | acc, c :: rest =>
    if pat.isPrefixOf (c :: rest) && ok ((c :: rest).drop pat.length) then
      some (acc.reverse, (c :: rest).drop pat.length)
    else findTailMatchAux pat ok (c :: acc) rest

/-- Find the first occurrence of `pat` in `s` whose remaining tail
satisfies `ok`. -/
def findTailMatch (s : String) (pat : String) (ok : List Char → Bool) :
    Option (String × List Char) :=
  (findTailMatchAux pat.data ok [] s.data).map (fun p => (String.mk p.1, p.2))

/-- StringUtils.toSingular, the shared plural-to-singular converter. -/
def toSingular (word : String) : String :=
  if JsStr.len word ≤ 1 then word
  else
    let lowerWord := JsStr.lower word
    match (irregularPlurals.lookup lowerWord) with
    | some sing => capitalizeFirst sing word
    | none =>
      -- Directus compound words, matched against an end-anchored regex.
      let directusS :=
        if JsStr.starts word "Directus" && JsStr.len word > JsStr.len "Directus"
            && JsStr.ends word "s" && !JsStr.ends word "ies" then
          match findTailMatch word "Directus" isCapWord with
          | some (front, tail) =>
            some (front ++ "Directus" ++ String.mk (tail.take (tail.length - 1)))
          | none => none
        else none
      match directusS with
      | some out => out
      | none =>
      let directusIes :=
        if JsStr.starts word "Directus" && JsStr.len word > JsStr.len "Directus"
            && JsStr.ends word "ies" then
          match findTailMatch word "Directus"
              (fun t => isCapWord t && JsStr.ends (String.mk t) "ies") with
          | some (front, tail) =>
            some (front ++ "Directus" ++ String.mk (tail.take (tail.length - 3)) ++ "y")
          | none => none
        else none
      match directusIes with
      | some out => out
      | none =>
      -- Generic compound words: an uppercase start, lowercase letters, and
      -- another uppercase letter (regex `^[A-Z][a-z]*[A-Z]`).
      let compound :=
        match word.data with
        | c :: rest =>
          if c.isUpper && (rest.dropWhile Char.isLower).head?.any Char.isUpper then
            let parts := JsStr.splitCaps word
            if parts.length ≥ 2 then
              let lastPart := parts.getLast!
              if JsStr.ends word "s" && !JsStr.ends word "ies" then
                if JsStr.ends lastPart "s" && JsStr.len lastPart > 1 then
                  some (String.join (parts.take (parts.length - 1)) ++
                    JsStr.dropRight lastPart 1)
                else none
              else if JsStr.ends word "ies" then
                if JsStr.ends lastPart "ies" && JsStr.len lastPart > 3 then
                  some (String.join (parts.take (parts.length - 1)) ++
                    JsStr.dropRight lastPart 3 ++ "y")
                else none
              else none
            else none
          else none
        | [] => none
      match compound with
      | some out => out
      | none =>
      if JsStr.ends lowerWord "ies" && JsStr.len lowerWord > 4 then
        capitalizeFirst (JsStr.dropRight lowerWord 3 ++ "y") word
      else
        let vesOut :=
          if JsStr.ends lowerWord "ves" && JsStr.len lowerWord > 4 then
            let withoutVes := JsStr.dropRight lowerWord 3
            if ["leaf", "wolf", "shelf", "calf", "half", "self", "knife",
                "life", "wife"].contains (withoutVes ++ "f") then
              some (capitalizeFirst (withoutVes ++ "f") word)
            else if ["leaf", "wolf", "shelf", "calf", "half",
                "self"].contains withoutVes then
              some (capitalizeFirst withoutVes word)
            else none
          else none
        match vesOut with
        | some out => out
        | none =>
        let esOut :=
          if JsStr.ends lowerWord "es" && !JsStr.ends lowerWord "ies"
              && !JsStr.ends lowerWord "ves" && JsStr.len lowerWord > 3 then
            let withoutEs := JsStr.dropRight lowerWord 2
            let lastChar := String.mk (withoutEs.data.drop (withoutEs.data.length - 1))
            if ["s", "sh", "ch", "x", "z"].contains lastChar
                || JsStr.ends withoutEs "ss" || JsStr.ends withoutEs "ch"
                || JsStr.ends withoutEs "sh" then
              some (capitalizeFirst withoutEs word)
            else none
          else none
        match esOut with
        | some out => out
        | none =>
        if JsStr.ends lowerWord "s" && JsStr.len lowerWord > 2 then
          let withoutS := JsStr.dropRight lowerWord 1
          if ["glas", "clas", "mas", "pas", "gras", "ga", "bu",
              "acces"].any (fun e => JsStr.ends withoutS e) then
            word
          else capitalizeFirst withoutS word
        else word

end StringUtils

/-! Data model: the field and collection descriptors consumed by the
generators (src/types), with optional sub-records as in the TypeScript
interfaces.  Options payloads are modelled by an explicit record holding
the keys the generators probe. -/

/-- One entry of an options `choices` array: either a plain string or an
object probed for a `value` key and, by the checkbox-tree emitter, for a
`children` array (JS renders objects without a usable value as
`[object Object]`). -/
inductive ChoiceVal where
  | str (s : String)
  | obj (value : Option String) (children : Option (List ChoiceVal))

/-- One entry of an options `options` array: a plain string or an object
probed for `value` then `text`. -/
inductive OptVal where
  | str (s : String)
  | obj (value : Option String) (text : Option String)
deriving DecidableEq, Repr

/-- A sub-field of a repeater `fields` option (only its name and raw type
are read by the generators). -/
structure RepeaterSubField where
  field : String
  type : String
deriving DecidableEq, Repr

/-- The options record carried by `field.meta.options`, holding every key
the generators probe. -/
structure FieldOptions where
  choices : Option (List ChoiceVal) := none
  options : Option (List OptVal) := none
  suggestions : Option (List String) := none
  presets : Option (List String) := none
  fields : Option (List RepeaterSubField) := none
  junction_table : Option String := none
  related_collection : Option String := none
  junction_collection : Option String := none
  collection : Option String := none
  many_collection : Option String := none
  one_collection : Option String := none

/-- The relevant parts of `field.schema`. -/
structure FieldSchema where
  data_type : Option String := none
  is_nullable : Option Bool := none
  foreign_key_table : Option String := none
deriving DecidableEq, Repr

/-- The relevant parts of `field.meta`. -/
structure FieldMeta where
  collection : Option String := none
  special : Option (List String) := none
  interface : Option String := none
  options : Option FieldOptions := none
  required : Option Bool := none

/-- A Directus field descriptor. -/
structure DirectusField where
  field : String
  type : String
  schema : Option FieldSchema := none
  meta : Option FieldMeta := none

/-- A collection together with its ordered field list. -/
structure DirectusCollectionWithFields where
  collection : String
  fields : List DirectusField

/-- The configuration keys read by the core generators. -/
structure ZodirectusConfig where
  collections : Option (List String) := none
  includeSystemCollections : Bool := false
  customFieldMappings : List (String × String) := []
deriving DecidableEq, Repr

/-- A relationship record as consumed by the generators' resolvers; the
Directus `/relations` payload carries `collection`, `field` and
`related_collection` keys plus the legacy one/many/junction keys. -/
structure RelationRec where
  collection : String := ""
  field : String := ""
  related_collection : String := ""
  one_collection : Option String := none
  one_field : Option String := none
  many_collection : Option String := none
  many_field : Option String := none
  junction_collection : Option String := none
deriving DecidableEq, Repr

/-- A first-pass artifact: collection name with optional validator text
and optional type text. -/
structure GeneratedSchema where
  collectionName : String
  schema : Option String := none
  type : Option String := none
deriving DecidableEq, Repr

/-- JS accessor `field.meta?.special || []`. -/
def DirectusField.specialOf (f : DirectusField) : List String :=
  (f.meta.bind (·.special)).getD []

/-- JS accessor `field.meta?.interface || ''`. -/
def DirectusField.interfaceOf (f : DirectusField) : String :=
  (f.meta.bind (·.interface)).getD ""

/-- JS accessor `field.meta?.options || {}`. -/
def DirectusField.optionsOf (f : DirectusField) : FieldOptions :=
  (f.meta.bind (·.options)).getD {}

/-- JS accessor `field.schema?.data_type || field.type` (an empty
`data_type` string is falsy and also falls back to the raw type). -/
def DirectusField.dataTypeOf (f : DirectusField) : String :=
  match JsStr.optTruthy (f.schema.bind (·.data_type)) with
  | some d => d
  | none => f.type

namespace CollectionUtils

/-- The folder names CollectionUtils.filterCollections always removes. -/
def foldersToFilter : List String :=
  ["Dialogues", "Expert_System", "Models", "settings"]

/-- CollectionUtils.filterCollections: restrict to the requested
collections when a request list is configured, drop system collections
unless requested, and always drop the known folder names. -/
def filterCollections (collections : List DirectusCollectionWithFields)
    (config : ZodirectusConfig) : List DirectusCollectionWithFields :=
  let targetCollections :=
    match config.collections with
    | some cs =>
      collections.filter (fun (c : DirectusCollectionWithFields) => cs.contains c.collection)
    | none => collections
  let targetCollections :=
    if !config.includeSystemCollections then
      targetCollections.filter (fun c => !JsStr.starts c.collection "directus_")
    else targetCollections
  targetCollections.filter (fun c => !foldersToFilter.contains c.collection)

end CollectionUtils

namespace FieldUtils

/-- FieldUtils.isDividerField: the field name starts with `divider-` or
the interface is `divider`. -/
def isDividerField (f : DirectusField) : Bool :=
  JsStr.starts f.field "divider-" || f.interfaceOf = "divider"

/-- FieldUtils.isNoticeField: the field name starts with `notice-` or the
interface is `notice`. -/
def isNoticeField (f : DirectusField) : Bool :=
  JsStr.starts f.field "notice-" || f.interfaceOf = "notice"

/-- FieldUtils.isUiOnlyField: a divider or notice field, skipped by both
emitters. -/
def isUiOnlyField (f : DirectusField) : Bool :=
  isDividerField f || isNoticeField f

end FieldUtils

namespace JsNum

/-- Digits prefix of a character list. -/
def takeDigits (cs : List Char) : List Char := cs.takeWhile Char.isDigit

/-- Model of JS `parseInt(value, 10)`: skip leading whitespace, read an
optional sign and the leading run of decimal digits; `none` models NaN. -/
def jsParseInt (s : String) : Option Int :=
  let cs := s.data.dropWhile Char.isWhitespace
  let (neg, cs) :=
    match cs with
    | '-' :: rest => (true, rest)
    | '+' :: rest => (false, rest)
    | rest => (false, rest)
  let ds := takeDigits cs
  if ds.isEmpty then none
  else
    let n : Nat := ds.foldl (fun acc c => acc * 10 + (c.toNat - '0'.toNat)) 0
    some (if neg then -(n : Int) else (n : Int))

/-- Strip leading zero characters, keeping at least one digit. -/
def stripLeadZeros : List Char → List Char
  | '0' :: rest => if rest.isEmpty then ['0'] else stripLeadZeros rest
  | l => l

/-- Model of JS `parseFloat` followed by number-to-string rendering, for
plain decimal literals: sign, integer digits, optional fraction digits
(exponent forms are not modelled; no theorem exercises this branch).
`none` models NaN. -/
def jsParseFloatRender (s : String) : Option String :=
  let cs := s.data.dropWhile Char.isWhitespace
  let (neg, cs) :=
    match cs with
    | '-' :: rest => (true, rest)
    | '+' :: rest => (false, rest)
    | rest => (false, rest)
  let ip := takeDigits cs
  let rest := cs.drop ip.length
  let fp :=
    match rest with
    | '.' :: tail => takeDigits tail
    | _ => []
  if ip.isEmpty && fp.isEmpty then none
  else
    let ipn := stripLeadZeros (if ip.isEmpty then ['0'] else ip)
    let fpn := (fp.reverse.dropWhile (· = '0')).reverse
    let mag := if fpn.isEmpty then String.mk ipn
               else String.mk ipn ++ "." ++ String.mk fpn
    if ipn.all (· = '0') && fpn.isEmpty then some "0"
    else some (if neg then "-" ++ mag else mag)

/-- First-occurrence-preserving deduplication, as `[...new Set(xs)]`. -/
def jsDedup [DecidableEq α] : List α → List α :=
  go []
where
  go (seen : List α) : List α → List α
    | [] => []
    | x :: rest =>
      if seen.contains x then go seen rest else x :: go (x :: seen) rest

/-- Join with a separator (JS `Array.prototype.join`). -/
def joinSep (sep : String) : List String → String
  | [] => ""
  | [x] => x
  | x :: rest => x ++ sep ++ joinSep sep rest

end JsNum

/-- The `value` key of a choices entry: `undefined` for a plain string
(strings have no `value` property) and the object's value otherwise. -/
def ChoiceVal.valueKey : ChoiceVal → Option String
  | .str _ => none
  | .obj v _ => v

/-- Extraction used by the enum/choice branches of both emitters: a plain
string is used directly; an object with a truthy `value` yields it; any
other object stringifies to `[object Object]`. -/
def ChoiceVal.extract : ChoiceVal → String
  | .str s => s
  | .obj v _ =>
    match JsStr.optTruthy v with
    | some s => s
    | none => "[object Object]"

/-- Extraction for `options.options` entries: a plain string, else a
truthy `value`, else a truthy `text`, else `[object Object]`. -/
def OptVal.extract : OptVal → String
  | .str s => s
  | .obj v t =>
    match JsStr.optTruthy v with
    | some s => s
    | none =>
      match JsStr.optTruthy t with
      | some s => s
      | none => "[object Object]"

/-- Collect the truthy values of a choice tree, depth first, recursing
into children arrays (`extractValues` of the checkbox-tree emitters). -/
def extractTreeValues : List ChoiceVal → List String
  | [] => []
  | c :: rest =>
    (match c with
     | .str _ => extractTreeValues rest
     | .obj v children =>
       let here :=
         match JsStr.optTruthy v with
         | some s => [s]
         | none => []
       let below :=
         match children with
         | some cl => extractTreeValues cl
         | none => []
       here ++ below ++ extractTreeValues rest)

namespace ZodGenerator

/-- ZodGenerator.toPascalCase (a private copy whose body is identical to
StringUtils.toPascalCase). -/
def toPascalCase (str : String) : String :=
  StringUtils.toPascalCase str

/-- ZodGenerator.toSingular delegates to the shared StringUtils method. -/
def toSingular (word : String) : String :=
  StringUtils.toSingular word

/-- ZodGenerator.isFileField. -/
def isFileField (f : DirectusField) : Bool :=
  f.specialOf.contains "file" || f.specialOf.contains "files" ||
    f.interfaceOf = "file" || f.interfaceOf = "file-image" ||
    f.interfaceOf = "files"

/-- ZodGenerator.generateFileSchema. -/
def generateFileSchema (f : DirectusField) : String :=
  if f.interfaceOf = "files" || f.specialOf.contains "files" then
    "z.array(DrxFileSchema)"
  else if f.interfaceOf = "file-image" then "DrxImageFileSchema"
  else "DrxFileSchema"

/-- ZodGenerator.isRadioButtonField. -/
def isRadioButtonField (f : DirectusField) : Bool :=
  f.interfaceOf = "select-radio"

/-- Render one deduplicated choice `value` into a quoted literal;
an absent value prints as `undefined` inside the JS template string. -/
def renderChoiceValue (v : Option String) : String :=
  "\x22" ++ v.getD "undefined" ++ "\x22"

/-- ZodGenerator.generateRadioButtonSchema: an enum of the deduplicated
choice values, or `z.string()` without choices. -/
def generateRadioButtonSchema (f : DirectusField) : String :=
  let choices := f.optionsOf.choices.getD []
  if choices.length > 0 then
    let values := choices.map ChoiceVal.valueKey
    let uniqueValues := JsNum.jsDedup values
    let valuesString := JsNum.joinSep ", " (uniqueValues.map renderChoiceValue)
    "z.enum([" ++ valuesString ++ "])"
  else "z.string()"

/-- ZodGenerator.isDropdownMultipleField. -/
def isDropdownMultipleField (f : DirectusField) : Bool :=
  f.interfaceOf = "select-multiple-dropdown"

/-- ZodGenerator.generateDropdownMultipleSchema. -/
def generateDropdownMultipleSchema (f : DirectusField) : String :=
  let choices := f.optionsOf.choices.getD []
  if choices.length > 0 then
    let values := choices.map ChoiceVal.valueKey
    let uniqueValues := JsNum.jsDedup values
    let valuesString := JsNum.joinSep ", " (uniqueValues.map renderChoiceValue)
    "z.array(z.enum([" ++ valuesString ++ "]))"
  else "z.array(z.string())"

/-- ZodGenerator.isCheckboxTreeField. -/
def isCheckboxTreeField (f : DirectusField) : Bool :=
  f.interfaceOf = "select-multiple-checkbox-tree"

/-- ZodGenerator.generateCheckboxTreeSchema: flatten the choice tree and
enumerate the deduplicated values. -/
def generateCheckboxTreeSchema (f : DirectusField) : String :=
  let choices := f.optionsOf.choices.getD []
  if choices.length > 0 then
    let allValues := extractTreeValues choices
    let uniqueValues := JsNum.jsDedup allValues
    let valuesString :=
      JsNum.joinSep ", " (uniqueValues.map (fun v => "\x22" ++ v ++ "\x22"))
    "z.array(z.enum([" ++ valuesString ++ "]))"
  else "z.array(z.string())"

/-- ZodGenerator.isDateTimeField: raw type date/time/datetime/timestamp,
a date/time interface, or a field name containing `date`/`time` or equal
to `ts`. -/
def isDateTimeField (f : DirectusField) : Bool :=
  let directusType := f.dataTypeOf
  let fieldName := JsStr.lower f.field
  (directusType = "timestamp" || directusType = "datetime" ||
   directusType = "date" || directusType = "time") ||
  (f.interfaceOf = "datetime" || f.interfaceOf = "date" ||
   f.interfaceOf = "time") ||
  (JsStr.has fieldName "date" || JsStr.has fieldName "time" ||
   fieldName = "ts")

/-- ZodGenerator.generateDateTimeSchema. -/
def generateDateTimeSchema (f : DirectusField) : String :=
  let directusType := f.dataTypeOf
  let fieldName := JsStr.lower f.field
  if directusType = "date" || f.interfaceOf = "date" || fieldName = "date" then
    "z.string().date()"
  else if directusType = "time" || f.interfaceOf = "time" || fieldName = "time" then
    "z.string().time()"
  else if directusType = "timestamp" || directusType = "datetime" ||
      f.interfaceOf = "datetime" || JsStr.has fieldName "datetime" ||
      fieldName = "ts" then
    "z.string().datetime()"
  else "z.string().datetime()"

/-- ZodGenerator.isAutocompleteField. -/
def isAutocompleteField (f : DirectusField) : Bool :=
  f.interfaceOf = "autocomplete"

/-- ZodGenerator.generateAutocompleteSchema. -/
def generateAutocompleteSchema (f : DirectusField) : String :=
  let suggestions := f.optionsOf.suggestions.getD []
  if suggestions.length > 0 then
    let suggestionValues :=
      JsNum.joinSep ", " (suggestions.map (fun s => "\x22" ++ s ++ "\x22"))
    "z.enum([" ++ suggestionValues ++ "])"
  else "z.string()"

/-- ZodGenerator.isTagField: the `cast-json` special tag together with
the `tags` interface. -/
def isTagField (f : DirectusField) : Bool :=
  f.specialOf.contains "cast-json" && f.interfaceOf = "tags"

/-- ZodGenerator.generateTagSchema. -/
def generateTagSchema (f : DirectusField) : String :=
  let presets := f.optionsOf.presets.getD []
  if presets.length > 0 then
    let presetValues :=
      JsNum.joinSep ", " (presets.map (fun p => "\x22" ++ p ++ "\x22"))
    "z.array(z.enum([" ++ presetValues ++ "]))"
  else "z.array(z.string())"

/-- ZodGenerator.isRepeaterField: the `cast-json` special tag, the `list`
interface and a non-empty `fields` options array. -/
def isRepeaterField (f : DirectusField) : Bool :=
  f.specialOf.contains "cast-json" && f.interfaceOf = "list" &&
    (match f.optionsOf.fields with
     | some l => l.length > 0
     | none => false)

/-- ZodGenerator.getZodTypeForSubField: the reduced scalar-only mapping
used for repeater sub-fields. -/
def getZodTypeForSubField (fieldType : String) : String :=
  if fieldType = "integer" || fieldType = "bigint" || fieldType = "smallint"
      || fieldType = "tinyint" then "z.number().int()"
  else if fieldType = "decimal" || fieldType = "float" || fieldType = "double" then
    "z.number()"
  else if fieldType = "boolean" then "z.boolean()"
  else if fieldType = "varchar" || fieldType = "char" || fieldType = "text"
      || fieldType = "longtext" || fieldType = "character varying" then
    "z.string()"
  else if fieldType = "date" then "z.string().date()"
  else if fieldType = "datetime" || fieldType = "timestamp" then
    "z.string().datetime()"
  else if fieldType = "time" then "z.string().time()"
  else if fieldType = "uuid" then "z.string().uuid()"
  else if fieldType = "json" then "z.any()"
  else "z.string()"

/-- ZodGenerator.generateRepeaterSchema: an array of an inline object of
the sub-field scalar schemas. -/
def generateRepeaterSchema (f : DirectusField) : String :=
  let repeaterFields := f.optionsOf.fields.getD []
  if repeaterFields.length = 0 then "z.array(z.any())"
  else
    let subFieldSchemas := repeaterFields.map
      (fun sf => sf.field ++ ": " ++ getZodTypeForSubField sf.type)
    let subFieldsString := JsNum.joinSep ",\n    " subFieldSchemas
    "z.array(z.object(\x7b\n    " ++ subFieldsString ++ "\n\x7d))"

/-- ZodGenerator.isDividerField (the generator's own copy also accepts a
raw type of `divider`). -/
def isDividerField (f : DirectusField) : Bool :=
  JsStr.starts f.field "divider-" || f.interfaceOf = "divider" ||
    f.type = "divider"

/-- The generators filter fields through the shared
FieldUtils.isUiOnlyField helper (divider or notice). -/
def isUiOnlyField (f : DirectusField) : Bool :=
  FieldUtils.isUiOnlyField f

/-- ZodGenerator.isManyToManyJunctionField. -/
def isManyToManyJunctionField (f : DirectusField) : Bool :=
  if f.specialOf.contains "m2o" then false
  else if JsStr.isTruthy f.optionsOf.junction_table then true
  else if JsStr.has f.interfaceOf "m2m" || JsStr.has f.interfaceOf "many-to-many" then
    true
  else if f.specialOf.contains "m2m" then true
  else false

/-- ZodGenerator.isRelationField. -/
def isRelationField (f : DirectusField) : Bool :=
  f.specialOf.contains "m2o" || f.specialOf.contains "o2m" ||
    f.specialOf.contains "m2a" || f.specialOf.contains "m2m" ||
    JsStr.has f.interfaceOf "m2o" || JsStr.has f.interfaceOf "o2m" ||
    JsStr.has f.interfaceOf "m2a" || JsStr.has f.interfaceOf "m2m" ||
    JsStr.has f.interfaceOf "many-to-many" ||
    isManyToManyJunctionField f

/-- ZodGenerator.isJunctionTable. -/
def isJunctionTable (collection : DirectusCollectionWithFields) : Bool :=
  let collectionName := collection.collection
  let fields := collection.fields
  if JsStr.has collectionName "_" &&
      (JsStr.has collectionName "_junction" || JsStr.has collectionName "_link"
        || JsStr.has collectionName "_relation") then
    true
  else
    let foreignKeyFields := fields.filter (fun f =>
      JsStr.isTruthy (f.schema.bind (·.foreign_key_table)) ||
        f.specialOf.contains "m2o")
    if foreignKeyFields.length ≥ 2 then
      let nonForeignKeyFields := fields.filter (fun f =>
        !JsStr.isTruthy (f.schema.bind (·.foreign_key_table)) &&
          !(f.specialOf.contains "m2o") && f.field ≠ "id" &&
          !JsStr.starts f.field "date_" && !JsStr.starts f.field "user_")
      nonForeignKeyFields.length ≤ 2
    else false

/-- Equality between an optional JS value and a string
(`undefined === s` is false). -/
def optEqStr (o : Option String) (s : String) : Bool :=
  o = some s

/-- The relationship-list search of ZodGenerator.getRelatedCollectionName
for an `m2m` field: a forward match on (collection, field), a reverse
match on related_collection, and finally a junction-table name
heuristic. -/
def m2mRelationshipSearch (rels : List RelationRec) (collectionName : Option String)
    (fieldName : String) : Option String :=
  match rels.find? (fun r => optEqStr collectionName r.collection &&
      r.field = fieldName && !optEqStr collectionName r.related_collection) with
  | some r => some r.related_collection
  | none =>
  match rels.find? (fun r => optEqStr collectionName r.related_collection &&
      !optEqStr collectionName r.collection) with
  | some r => some r.collection
  | none =>
  let junctionRelations := rels.filter (fun r =>
    JsStr.has r.collection "_" &&
      JsStr.has r.collection (collectionName.getD "undefined") &&
      optEqStr collectionName r.related_collection)
  if junctionRelations.length > 0 then
    let targetA :=
      if fieldName = "enables" || fieldName = "disables" then
        match junctionRelations.find?
            (fun r => JsStr.has (JsStr.lower r.collection) "enabler") with
        | some r => some r
        | none =>
          junctionRelations.find?
            (fun r => !JsStr.has (JsStr.lower r.collection) "question")
      else none
    let target :=
      match targetA with
      | some r => some r
      | none => junctionRelations.head?
    match target with
    | some tj =>
      let parts := JsStr.splitChar tj.collection '_'
      if parts.length ≥ 2 then
        match parts.find? (fun p =>
            JsStr.lower p ≠ JsStr.lower (collectionName.getD "") &&
              JsStr.lower p ≠ "id") with
        | some relatedPart =>
          let relatedCollection := JsStr.lower relatedPart ++ "s"
          if rels.any (fun r => r.collection = relatedCollection ||
              r.related_collection = relatedCollection) then
            some relatedCollection
          else none
        | none => none
      else none
    | none => none
  else none

/-- ZodGenerator.getRelatedCollectionName.  The result distinguishes an
explicit `return` (outer `some`, carrying `null` as inner `none`) from
falling through the `m2m` block into the `o2m` block, mirroring the
sequence of early returns in the source. -/
def getRelatedCollectionName (rels : List RelationRec) (f : DirectusField) :
    Option String :=
  let special := f.specialOf
  let options := f.optionsOf
  let fk := f.schema.bind (·.foreign_key_table)
  if special.contains "m2o" && JsStr.isTruthy fk then fk
  else
    let m2mBlock : Option (Option String) :=
      if special.contains "m2m" || isManyToManyJunctionField f then
        match JsStr.optTruthy options.junction_table with
        | some jt => some (some jt)
        | none =>
        match JsStr.optTruthy options.related_collection with
        | some rc => some (some rc)
        | none =>
        let fieldName := f.field
        if special.contains "m2m" then
          -- the first two checks repeat the outer ones and are
          -- unreachable; they are kept to mirror the source order
          match JsStr.optTruthy options.related_collection with
          | some rc => some (some rc)
          | none =>
          match JsStr.optTruthy options.junction_collection with
          | some jc => some (some jc)
          | none =>
          match JsStr.optTruthy options.collection with
          | some c => some (some c)
          | none =>
          match JsStr.optTruthy options.many_collection with
          | some mc => some (some mc)
          | none =>
          match JsStr.optTruthy options.one_collection with
          | some oc => some (some oc)
          | none =>
          match JsStr.optTruthy options.junction_table with
          | some junctionTable =>
            if JsStr.has junctionTable "_" then
              let parts := JsStr.splitChar junctionTable '_'
              some (some ((parts.getLastD "") ++ "s"))
            else some (some junctionTable)
          | none =>
          if rels.length > 0 then
            let collectionName := f.meta.bind (·.collection)
            some (m2mRelationshipSearch rels collectionName fieldName)
          else some none
        else
          if JsStr.has fieldName "_" then
            let parts := JsStr.splitChar fieldName '_'
            if parts.length ≥ 2 then
              if parts.getLastD "" = "id" then
                some (some (JsNum.joinSep "_" (parts.take (parts.length - 1)) ++ "s"))
              else none
            else none
          else none
      else none
    match m2mBlock with
    | some r => r
    | none =>
      if special.contains "o2m" then
        match JsStr.optTruthy options.related_collection with
        | some rc => some rc
        | none =>
          if f.field = "activity_logs" then some "audit_activity_logs"
          else none
      else none

/-- One converted choice of the zod enum branch: numeric raw types parse
the value (falling back to the raw text on NaN), booleans compare against
the literal `true`, and strings are quoted. -/
def convZodChoice (directusType : String) (c : ChoiceVal) : String :=
  let value := c.extract
  if directusType = "integer" || directusType = "bigint" then
    match JsNum.jsParseInt value with
    | some n => toString n
    | none => value
  else if directusType = "decimal" || directusType = "float" ||
      directusType = "real" then
    match JsNum.jsParseFloatRender value with
    | some r => r
    | none => value
  else if directusType = "boolean" then
    if value = "true" then "true" else "false"
  else "\x22" ++ value ++ "\x22"

/-- One converted entry of the `options.options` dropdown branch of the
zod emitter. -/
def convZodOpt (directusType : String) (o : OptVal) : String :=
  let value := o.extract
  if directusType = "integer" || directusType = "bigint" then
    match JsNum.jsParseInt value with
    | some n => toString n
    | none => value
  else if directusType = "decimal" || directusType = "float" ||
      directusType = "real" then
    match JsNum.jsParseFloatRender value with
    | some r => r
    | none => value
  else if directusType = "boolean" then
    if value = "true" then "true" else "false"
  else "\x22" ++ value ++ "\x22"

/-- ZodGenerator.getZodType: the fixed classification chain producing the
zod expression of one field. -/
def getZodType (cfg : ZodirectusConfig) (rels : List RelationRec)
    (f : DirectusField) : String :=
  let directusType := f.dataTypeOf
  let special := f.specialOf
  let options := f.optionsOf
  if isFileField f then generateFileSchema f
  else if isRadioButtonField f then generateRadioButtonSchema f
  else if isDropdownMultipleField f then generateDropdownMultipleSchema f
  else if isCheckboxTreeField f then generateCheckboxTreeSchema f
  else if isDateTimeField f then generateDateTimeSchema f
  else if isAutocompleteField f then generateAutocompleteSchema f
  else if isTagField f then generateTagSchema f
  else if isRepeaterField f then generateRepeaterSchema f
  else
    let relationOut : Option String :=
      if isRelationField f then
        match JsStr.optTruthy (getRelatedCollectionName rels f) with
        | some relatedCollection =>
          let isSystemCollection := JsStr.starts relatedCollection "directus_"
          let baseCollectionName :=
            if isSystemCollection then
              JsStr.replaceFirst relatedCollection "directus_" ""
            else relatedCollection
          let collectionName := toSingular (toPascalCase baseCollectionName)
          let relatedSchemaName :=
            if isSystemCollection then
              "DrxDirectus" ++ collectionName ++ "Schema"
            else "Drx" ++ collectionName ++ "Schema"
          let currentCollectionName := (f.meta.bind (·.collection)).getD ""
          let isSelfReference := currentCollectionName = relatedCollection
          if special.contains "m2o" then
            if isSelfReference then
              let selfSchemaName :=
                if isSystemCollection then
                  "DrxDirectus" ++
                    toSingular (toPascalCase
                      (JsStr.replaceFirst relatedCollection "directus_" "")) ++
                    "Schema"
                else
                  "Drx" ++ toSingular (toPascalCase relatedCollection) ++ "Schema"
              some ("z.lazy(() => " ++ selfSchemaName ++ ")")
            else some relatedSchemaName
          else if special.contains "o2m" then
            some ("z.array(" ++ relatedSchemaName ++ ")")
          else if special.contains "m2a" then
            some ("z.array(" ++ relatedSchemaName ++ ")")
          else if special.contains "m2m" || isManyToManyJunctionField f then
            some ("z.array(" ++ relatedSchemaName ++ ")")
          else none
        | none => none
      else none
    match relationOut with
    | some out => out
    | none =>
    let choicesOut : Option String :=
      match options.choices with
      | some cs =>
        if cs.length > 0 then
          some ("z.enum([" ++
            JsNum.joinSep ", " (cs.map (convZodChoice directusType)) ++ "])")
        else none
      | none => none
    match choicesOut with
    | some out => out
    | none =>
    let optionsOut : Option String :=
      match options.options with
      | some os =>
        if os.length > 0 then
          some ("z.enum([" ++
            JsNum.joinSep ", " (os.map (convZodOpt directusType)) ++ "])")
        else none
      | none => none
    match optionsOut with
    | some out => out
    | none =>
    if special.contains "uuid" then "z.string().uuid()"
    else if special.contains "date-created" || special.contains "date-updated" then
      "z.string().datetime()"
    else if special.contains "user-created" || special.contains "user-updated" then
      "z.string()"
    else if special.contains "sort" then "z.number().int()"
    else if directusType = "uuid" then "z.string().uuid()"
    else if directusType = "varchar" || directusType = "char" ||
        directusType = "text" || directusType = "longtext" ||
        directusType = "character varying" then "z.string()"
    else if directusType = "integer" || directusType = "bigint" ||
        directusType = "smallint" || directusType = "tinyint" then
      "z.number().int()"
    else if directusType = "decimal" || directusType = "float" ||
        directusType = "double" then "z.number()"
    else if directusType = "boolean" then "z.boolean()"
    else if directusType = "date" then "z.string().date()"
    else if directusType = "datetime" || directusType = "timestamp" then
      "z.string().datetime()"
    else if directusType = "time" then "z.string().time()"
    else if directusType = "json" then "z.any()"
    else if directusType = "geometry" then "z.any()"
    else if directusType = "binary" then "z.string()"
    else
      match JsStr.optTruthy (cfg.customFieldMappings.lookup directusType) with
      | some m => m
      | none => "z.string()"

/-- ZodGenerator.generateFieldSchema: the field entry emitted into the
`z.object` block; `.nullable()` is appended for nullable non-required
fields, then `.optional()` for non-required fields. -/
def generateFieldSchema (cfg : ZodirectusConfig) (rels : List RelationRec)
    (f : DirectusField) : String :=
  let zodType := getZodType cfg rels f
  let isRequired := (f.meta.bind (·.required)).getD false
  let isNullable := (f.schema.bind (·.is_nullable)).getD true
  let s := f.field ++ ": " ++ zodType
  let s := if isNullable && !isRequired then s ++ ".nullable()" else s
  if !isRequired then s ++ ".optional()" else s

/-- ZodGenerator.getFieldsToOmitForCreate: always the identifier, plus
each audit field actually present in the (filtered) field list.  The
`hasIdField` argument is accepted and ignored, as in the source. -/
def getFieldsToOmitForCreate (fields : List DirectusField) (_hasIdField : Bool) :
    List String :=
  "id" ::
    (["user_created", "date_created", "user_updated", "date_updated"].filter
      (fun sf => fields.any (fun f => f.field = sf)))

/-- The debug-comment block for one relation field. -/
def debugFieldInfo (rels : List RelationRec) (f : DirectusField) : String :=
  let relatedCollection := getRelatedCollectionName rels f
  "// Field: " ++ f.field ++ "\n" ++
  "//   Special: [" ++ JsNum.joinSep ", " f.specialOf ++ "]\n" ++
  "//   Interface: " ++ f.interfaceOf ++ "\n" ++
  "//   Related Collection: " ++
    ((JsStr.optTruthy relatedCollection).getD "Unknown") ++ "\n" ++
  "//   Junction Table: " ++
    ((JsStr.optTruthy f.optionsOf.junction_table).getD "None") ++ "\n" ++
  "//   Is M2M Junction: " ++
    (if isManyToManyJunctionField f then "true" else "false") ++ "\n"

/-- ZodGenerator.generateRelationshipDebugInfo. -/
def generateRelationshipDebugInfo (rels : List RelationRec)
    (collection : DirectusCollectionWithFields) : String :=
  let relationFields := collection.fields.filter isRelationField
  let junctionTables := isJunctionTable collection
  if relationFields.length = 0 && !junctionTables then ""
  else
    "\n// DEBUG: Relationship information for " ++ collection.collection ++ "\n"
      ++ (if junctionTables then "// This appears to be a junction table\n" else "")
      ++ String.join (relationFields.map (debugFieldInfo rels))
      ++ "// END DEBUG\n\n"

/-- The field list surviving the UI-only filter. -/
def filteredFieldsOf (collection : DirectusCollectionWithFields) :
    List DirectusField :=
  collection.fields.filter (fun f => !isUiOnlyField f)

/-- Whether the filtered field list carries an `id` field. -/
def hasIdFieldOf (collection : DirectusCollectionWithFields) : Bool :=
  (filteredFieldsOf collection).any (fun f => f.field = "id")

/-- The entry strings of the emitted `z.object` block, with the synthetic
optional identifier entry unshifted when no `id` field exists. -/
def fieldEntries (cfg : ZodirectusConfig) (rels : List RelationRec)
    (collection : DirectusCollectionWithFields) : List String :=
  let fields := (filteredFieldsOf collection).map (generateFieldSchema cfg rels)
  if !hasIdFieldOf collection then
    "id: z.string().uuid().optional()" :: fields
  else fields

/-- The singular pascal-cased entity name of a collection. -/
def singularNameOf (collection : DirectusCollectionWithFields) : String :=
  toSingular (toPascalCase collection.collection)

/-- ZodGenerator.generateSchema without the leading debug block: the base
schema and its Create/Update/Get variants, in the plain or the lazy
(circular) form. -/
def generateSchemaBody (cfg : ZodirectusConfig) (rels : List RelationRec)
    (collection : DirectusCollectionWithFields)
    (isCircularDependency : Bool) : String :=
  let schemaName := "Drx" ++ singularNameOf collection ++ "Schema"
  let fieldsString := JsNum.joinSep ",\n    " (fieldEntries cfg rels collection)
  let fieldsToOmit :=
    getFieldsToOmitForCreate (filteredFieldsOf collection) (hasIdFieldOf collection)
  let omitFieldsString :=
    JsNum.joinSep ",\n" (fieldsToOmit.map (fun f => "    " ++ f ++ ": true"))
  let createSchemaName := JsStr.replaceFirst schemaName "Schema" "CreateSchema"
  let updateSchemaName := JsStr.replaceFirst schemaName "Schema" "UpdateSchema"
  let getSchemaName := JsStr.replaceFirst schemaName "Schema" "GetSchema"
  if isCircularDependency then
    let baseSchema := "export const " ++ schemaName ++
      ": z.ZodType<any> = z.lazy(() => z.object(\x7b\n    " ++ fieldsString ++
      "\n\x7d));"
    let createSchema := "export const " ++ createSchemaName ++
      ": z.ZodType<any> = z.lazy(() => (" ++ schemaName ++
      " as z.ZodObject<any>).omit(\x7b\n" ++ omitFieldsString ++ "\n\x7d));"
    let updateSchema := "export const " ++ updateSchemaName ++
      ": z.ZodType<any> = z.lazy(() => (" ++ schemaName ++
      " as z.ZodObject<any>).partial().required(\x7b\n    id: true\n\x7d));"
    let getSchema := "export const " ++ getSchemaName ++
      ": z.ZodType<any> = z.lazy(() => " ++ schemaName ++ ");"
    baseSchema ++ "\n\n" ++ createSchema ++ "\n\n" ++ updateSchema ++ "\n\n"
      ++ getSchema
  else
    let baseSchema := "export const " ++ schemaName ++
      " = z.object(\x7b\n    " ++ fieldsString ++ "\n\x7d);"
    let createSchema := "export const " ++ createSchemaName ++ " = " ++
      schemaName ++ ".omit(\x7b\n" ++ omitFieldsString ++ "\n\x7d);"
    let updateSchema := "export const " ++ updateSchemaName ++ " = " ++
      schemaName ++ ".partial().required(\x7b\n    id: true\n\x7d);"
    let getSchema := "export const " ++ getSchemaName ++ " = " ++ schemaName ++ ";"
    baseSchema ++ "\n\n" ++ createSchema ++ "\n\n" ++ updateSchema ++ "\n\n"
      ++ getSchema

/-- ZodGenerator.generateSchema: debug block followed by the four
variants. -/
def generateSchema (cfg : ZodirectusConfig) (rels : List RelationRec)
    (collection : DirectusCollectionWithFields)
    (isCircularDependency : Bool := false) : String :=
  generateRelationshipDebugInfo rels collection ++
    generateSchemaBody cfg rels collection isCircularDependency

/-- The field names of the emitted base object, in order: the synthetic
identifier (when inserted) followed by the filtered field names. -/
def baseFieldNames (collection : DirectusCollectionWithFields) : List String :=
  let names := (filteredFieldsOf collection).map (fun f => f.field)
  if !hasIdFieldOf collection then "id" :: names else names

/-- The field names surviving the `.omit` of the Create variant. -/
def createFieldNames (collection : DirectusCollectionWithFields) : List String :=
  let omitted :=
    getFieldsToOmitForCreate (filteredFieldsOf collection) (hasIdFieldOf collection)
  (baseFieldNames collection).filter (fun n => !omitted.contains n)

/-- The field names of the Update variant: `.partial().required` keeps
every key of the base object. -/
def updateFieldNames (collection : DirectusCollectionWithFields) : List String :=
  baseFieldNames collection

/-- The field names of the Get variant, identical to the base. -/
def getFieldNames (collection : DirectusCollectionWithFields) : List String :=
  baseFieldNames collection

end ZodGenerator

namespace TypeGenerator

/-- TypeGenerator.toPascalCase (a private copy whose body is identical to
StringUtils.toPascalCase). -/
def toPascalCase (str : String) : String :=
  StringUtils.toPascalCase str

/-- TypeGenerator.toSingular: the generator's own reduced suffix rules
(`-ies` to `-y`, sibilant `-es` removal, then plain `-s` removal). -/
def toSingular (word : String) : String :=
  if JsStr.ends word "ies" then JsStr.dropRight word 3 ++ "y"
  else if JsStr.ends word "ses" || JsStr.ends word "shes" ||
      JsStr.ends word "ches" || JsStr.ends word "xes" ||
      JsStr.ends word "zes" then
    JsStr.dropRight word 2
  else if JsStr.ends word "s" && JsStr.len word > 1 then
    JsStr.dropRight word 1
  else word

/-- TypeGenerator.isFileField. -/
def isFileField (f : DirectusField) : Bool :=
  f.specialOf.contains "file" || f.specialOf.contains "files" ||
    f.interfaceOf = "file" || f.interfaceOf = "file-image" ||
    f.interfaceOf = "files"

/-- TypeGenerator.generateFileType. -/
def generateFileType (f : DirectusField) : String :=
  if f.interfaceOf = "files" || f.specialOf.contains "files" then "DrsFile[]"
  else if f.interfaceOf = "file-image" then "DrsImageFile"
  else "DrsFile"

/-- TypeGenerator.isRadioButtonField. -/
def isRadioButtonField (f : DirectusField) : Bool :=
  f.interfaceOf = "select-radio"

/-- TypeGenerator.generateRadioButtonType: a union of the deduplicated
quoted choice values, or `string`. -/
def generateRadioButtonType (f : DirectusField) : String :=
  let choices := f.optionsOf.choices.getD []
  if choices.length > 0 then
    let values := choices.map ChoiceVal.valueKey
    let uniqueValues := JsNum.jsDedup values
    JsNum.joinSep " | " (uniqueValues.map ZodGenerator.renderChoiceValue)
  else "string"

/-- TypeGenerator.isDropdownMultipleField. -/
def isDropdownMultipleField (f : DirectusField) : Bool :=
  f.interfaceOf = "select-multiple-dropdown"

/-- TypeGenerator.generateDropdownMultipleType. -/
def generateDropdownMultipleType (f : DirectusField) : String :=
  let choices := f.optionsOf.choices.getD []
  if choices.length > 0 then
    let values := choices.map ChoiceVal.valueKey
    let uniqueValues := JsNum.jsDedup values
    "(" ++ JsNum.joinSep " | " (uniqueValues.map ZodGenerator.renderChoiceValue)
      ++ ")[]"
  else "string[]"

/-- TypeGenerator.isCheckboxTreeField. -/
def isCheckboxTreeField (f : DirectusField) : Bool :=
  f.interfaceOf = "select-multiple-checkbox-tree"

/-- TypeGenerator.generateCheckboxTreeType. -/
def generateCheckboxTreeType (f : DirectusField) : String :=
  let choices := f.optionsOf.choices.getD []
  if choices.length > 0 then
    let allValues := extractTreeValues choices
    let uniqueValues := JsNum.jsDedup allValues
    "(" ++ JsNum.joinSep " | "
        (uniqueValues.map (fun v => "\x22" ++ v ++ "\x22")) ++ ")[]"
  else "string[]"

/-- TypeGenerator.isDateTimeField (same predicate as the zod side). -/
def isDateTimeField (f : DirectusField) : Bool :=
  let directusType := f.dataTypeOf
  let fieldName := JsStr.lower f.field
  (directusType = "timestamp" || directusType = "datetime" ||
   directusType = "date" || directusType = "time") ||
  (f.interfaceOf = "datetime" || f.interfaceOf = "date" ||
   f.interfaceOf = "time") ||
  (JsStr.has fieldName "date" || JsStr.has fieldName "time" ||
   fieldName = "ts")

/-- TypeGenerator.generateDateTimeType: each branch yields the ISO string
type. -/
def generateDateTimeType (f : DirectusField) : String :=
  let directusType := f.dataTypeOf
  let fieldName := JsStr.lower f.field
  if directusType = "date" || f.interfaceOf = "date" || fieldName = "date" then
    "string"
  else if directusType = "time" || f.interfaceOf = "time" || fieldName = "time" then
    "string"
  else if directusType = "timestamp" || directusType = "datetime" ||
      f.interfaceOf = "datetime" || JsStr.has fieldName "datetime" ||
      fieldName = "ts" then
    "string"
  else "string"

/-- TypeGenerator.isAutocompleteField. -/
def isAutocompleteField (f : DirectusField) : Bool :=
  f.interfaceOf = "autocomplete"

/-- TypeGenerator.generateAutocompleteType. -/
def generateAutocompleteType (f : DirectusField) : String :=
  let suggestions := f.optionsOf.suggestions.getD []
  if suggestions.length > 0 then
    JsNum.joinSep " | " (suggestions.map (fun s => "\x22" ++ s ++ "\x22"))
  else "string"

/-- TypeGenerator.isTagField (same predicate as the zod side). -/
def isTagField (f : DirectusField) : Bool :=
  f.specialOf.contains "cast-json" && f.interfaceOf = "tags"

/-- TypeGenerator.generateTagType. -/
def generateTagType (f : DirectusField) : String :=
  let presets := f.optionsOf.presets.getD []
  if presets.length > 0 then
    "(" ++ JsNum.joinSep " | " (presets.map (fun p => "\x22" ++ p ++ "\x22"))
      ++ ")[]"
  else "string[]"

/-- TypeGenerator.isRepeaterField (same predicate as the zod side). -/
def isRepeaterField (f : DirectusField) : Bool :=
  f.specialOf.contains "cast-json" && f.interfaceOf = "list" &&
    (match f.optionsOf.fields with
     | some l => l.length > 0
     | none => false)

/-- TypeGenerator.getTypeScriptTypeForSubField. -/
def getTypeScriptTypeForSubField (fieldType : String) : String :=
  if fieldType = "integer" || fieldType = "bigint" || fieldType = "smallint"
      || fieldType = "tinyint" then "number"
  else if fieldType = "decimal" || fieldType = "float" || fieldType = "double" then
    "number"
  else if fieldType = "boolean" then "boolean"
  else if fieldType = "varchar" || fieldType = "char" || fieldType = "text"
      || fieldType = "longtext" || fieldType = "character varying" then "string"
  else if fieldType = "date" then "string"
  else if fieldType = "datetime" || fieldType = "timestamp" then "string"
  else if fieldType = "time" then "string"
  else if fieldType = "uuid" then "string"
  else if fieldType = "json" then "any"
  else "string"

/-- TypeGenerator.generateRepeaterType. -/
def generateRepeaterType (f : DirectusField) : String :=
  let repeaterFields := f.optionsOf.fields.getD []
  if repeaterFields.length = 0 then "any[]"
  else
    let subFieldTypes := repeaterFields.map
      (fun sf => sf.field ++ ": " ++ getTypeScriptTypeForSubField sf.type)
    let subFieldsString := JsNum.joinSep "; " subFieldTypes
    "\x7b\n    " ++ subFieldsString ++ ";\n\x7d[]"

/-- TypeGenerator.isManyToManyJunctionField (same as the zod side). -/
def isManyToManyJunctionField (f : DirectusField) : Bool :=
  if f.specialOf.contains "m2o" then false
  else if JsStr.isTruthy f.optionsOf.junction_table then true
  else if JsStr.has f.interfaceOf "m2m" || JsStr.has f.interfaceOf "many-to-many" then
    true
  else if f.specialOf.contains "m2m" then true
  else false

/-- TypeGenerator.isRelationField (same as the zod side). -/
def isRelationField (f : DirectusField) : Bool :=
  f.specialOf.contains "m2o" || f.specialOf.contains "o2m" ||
    f.specialOf.contains "m2a" || f.specialOf.contains "m2m" ||
    JsStr.has f.interfaceOf "m2o" || JsStr.has f.interfaceOf "o2m" ||
    JsStr.has f.interfaceOf "m2a" || JsStr.has f.interfaceOf "m2m" ||
    JsStr.has f.interfaceOf "many-to-many" ||
    isManyToManyJunctionField f

/-- The relationship-list search of the type generator, over the legacy
one/many/junction record keys. -/
def m2mRelationshipSearch (rels : List RelationRec) (collectionName : Option String)
    (fieldName : String) : Option String :=
  match rels.find? (fun r => r.one_collection = collectionName &&
      r.one_field = some fieldName && r.many_collection ≠ collectionName) with
  | some r => r.many_collection
  | none =>
  match rels.find? (fun r => r.many_collection = collectionName &&
      r.many_field = some fieldName && r.one_collection ≠ collectionName) with
  | some r => r.one_collection
  | none =>
  match rels.find? (fun r => r.junction_collection = collectionName &&
      (r.one_collection ≠ collectionName || r.many_collection ≠ collectionName)) with
  | some r =>
    if r.one_collection = collectionName then r.many_collection
    else r.one_collection
  | none => none

/-- TypeGenerator.getRelatedCollectionName; structured like the zod-side
resolver, with the legacy relationship search. -/
def getRelatedCollectionName (rels : List RelationRec) (f : DirectusField) :
    Option String :=
  let special := f.specialOf
  let options := f.optionsOf
  let fk := f.schema.bind (·.foreign_key_table)
  if special.contains "m2o" && JsStr.isTruthy fk then fk
  else
    let m2mBlock : Option (Option String) :=
      if special.contains "m2m" || isManyToManyJunctionField f then
        match JsStr.optTruthy options.junction_table with
        | some jt => some (some jt)
        | none =>
        match JsStr.optTruthy options.related_collection with
        | some rc => some (some rc)
        | none =>
        let fieldName := f.field
        if special.contains "m2m" then
          match JsStr.optTruthy options.related_collection with
          | some rc => some (some rc)
          | none =>
          match JsStr.optTruthy options.junction_collection with
          | some jc => some (some jc)
          | none =>
          match JsStr.optTruthy options.collection with
          | some c => some (some c)
          | none =>
          match JsStr.optTruthy options.many_collection with
          | some mc => some (some mc)
          | none =>
          match JsStr.optTruthy options.one_collection with
          | some oc => some (some oc)
          | none =>
          match JsStr.optTruthy options.junction_table with
          | some junctionTable =>
            if JsStr.has junctionTable "_" then
              let parts := JsStr.splitChar junctionTable '_'
              some (some ((parts.getLastD "") ++ "s"))
            else some (some junctionTable)
          | none =>
          if rels.length > 0 then
            let collectionName := f.meta.bind (·.collection)
            some (m2mRelationshipSearch rels collectionName fieldName)
          else some none
        else
          if JsStr.has fieldName "_" then
            let parts := JsStr.splitChar fieldName '_'
            if parts.length ≥ 2 then
              if parts.getLastD "" = "id" then
                some (some (JsNum.joinSep "_" (parts.take (parts.length - 1)) ++ "s"))
              else none
            else none
          else none
      else none
    match m2mBlock with
    | some r => r
    | none =>
      if special.contains "o2m" then
        match JsStr.optTruthy options.related_collection with
        | some rc => some rc
        | none =>
          if f.field = "activity_logs" then some "audit_activity_logs"
          else none
      else none

/-- One converted choice of the TypeScript union branch: the NaN fallback
is quoted here, unlike the zod side. -/
def convTsChoice (directusType : String) (c : ChoiceVal) : String :=
  let value := c.extract
  if directusType = "integer" || directusType = "bigint" then
    match JsNum.jsParseInt value with
    | some n => toString n
    | none => "\x22" ++ value ++ "\x22"
  else if directusType = "decimal" || directusType = "float" ||
      directusType = "real" then
    match JsNum.jsParseFloatRender value with
    | some r => r
    | none => "\x22" ++ value ++ "\x22"
  else if directusType = "boolean" then
    if value = "true" then "true" else "false"
  else "\x22" ++ value ++ "\x22"

/-- One converted `options.options` entry of the TypeScript union
branch. -/
def convTsOpt (directusType : String) (o : OptVal) : String :=
  let value := o.extract
  if directusType = "integer" || directusType = "bigint" then
    match JsNum.jsParseInt value with
    | some n => toString n
    | none => "\x22" ++ value ++ "\x22"
  else if directusType = "decimal" || directusType = "float" ||
      directusType = "real" then
    match JsNum.jsParseFloatRender value with
    | some r => r
    | none => "\x22" ++ value ++ "\x22"
  else if directusType = "boolean" then
    if value = "true" then "true" else "false"
  else "\x22" ++ value ++ "\x22"

/-- TypeGenerator.getTypeScriptType: the classification chain producing
the TypeScript type expression of one field. -/
def getTypeScriptType (cfg : ZodirectusConfig) (rels : List RelationRec)
    (f : DirectusField) : String :=
  let directusType := f.dataTypeOf
  let special := f.specialOf
  let options := f.optionsOf
  if isFileField f then generateFileType f
  else if isRadioButtonField f then generateRadioButtonType f
  else if isDropdownMultipleField f then generateDropdownMultipleType f
  else if isCheckboxTreeField f then generateCheckboxTreeType f
  else if isDateTimeField f then generateDateTimeType f
  else if isAutocompleteField f then generateAutocompleteType f
  else if isTagField f then generateTagType f
  else if isRepeaterField f then generateRepeaterType f
  else
    let relationOut : Option String :=
      if isRelationField f then
        match JsStr.optTruthy (getRelatedCollectionName rels f) with
        | some relatedCollection =>
          let isSystemCollection := JsStr.starts relatedCollection "directus_"
          let baseCollectionName :=
            if isSystemCollection then
              JsStr.replaceFirst relatedCollection "directus_" ""
            else relatedCollection
          let collectionName := toSingular (toPascalCase baseCollectionName)
          let relatedTypeName :=
            if isSystemCollection then "DrsDirectus" ++ collectionName
            else "Drs" ++ collectionName
          if special.contains "m2o" then some relatedTypeName
          else if special.contains "o2m" then some (relatedTypeName ++ "[]")
          else if special.contains "m2a" then some (relatedTypeName ++ "[]")
          else if special.contains "m2m" || isManyToManyJunctionField f then
            some (relatedTypeName ++ "[]")
          else none
        | none => none
      else none
    match relationOut with
    | some out => out
    | none =>
    let choicesOut : Option String :=
      match options.choices with
      | some cs =>
        if cs.length > 0 then
          some (JsNum.joinSep " | " (cs.map (convTsChoice directusType)))
        else none
      | none => none
    match choicesOut with
    | some out => out
    | none =>
    let optionsOut : Option String :=
      match options.options with
      | some os =>
        if os.length > 0 then
          some (JsNum.joinSep " | " (os.map (convTsOpt directusType)))
        else none
      | none => none
    match optionsOut with
    | some out => out
    | none =>
    if special.contains "uuid" then "string"
    else if special.contains "date-created" || special.contains "date-updated" then
      "string"
    else if special.contains "user-created" || special.contains "user-updated" then
      "string"
    else if special.contains "sort" then "number"
    else if directusType = "uuid" then "string"
    else if directusType = "varchar" || directusType = "char" ||
        directusType = "text" || directusType = "longtext" ||
        directusType = "character varying" then "string"
    else if directusType = "integer" || directusType = "bigint" ||
        directusType = "smallint" || directusType = "tinyint" then "number"
    else if directusType = "decimal" || directusType = "float" ||
        directusType = "double" then "number"
    else if directusType = "boolean" then "boolean"
    else if directusType = "date" then "string"
    else if directusType = "datetime" || directusType = "timestamp" then "string"
    else if directusType = "time" then "string"
    else if directusType = "json" then "any"
    else if directusType = "geometry" then "any"
    else if directusType = "binary" then "string"
    else
      match JsStr.optTruthy (cfg.customFieldMappings.lookup directusType) with
      | some m => m
      | none => "any"

/-- TypeGenerator.generateFieldType: `name?: type` for non-required
fields, `name: type` otherwise. -/
def generateFieldType (cfg : ZodirectusConfig) (rels : List RelationRec)
    (f : DirectusField) : String :=
  let tsType := getTypeScriptType cfg rels f
  let isRequired := (f.meta.bind (·.required)).getD false
  f.field ++ (if !isRequired then "?" else "") ++ ": " ++ tsType

/-- TypeGenerator.getFieldsToOmitForCreate (same body as the zod side). -/
def getFieldsToOmitForCreate (fields : List DirectusField) (_hasIdField : Bool) :
    List String :=
  "id" ::
    (["user_created", "date_created", "user_updated", "date_updated"].filter
      (fun sf => fields.any (fun f => f.field = sf)))

/-- The generators filter fields through the shared
FieldUtils.isUiOnlyField helper (divider or notice). -/
def isUiOnlyField (f : DirectusField) : Bool :=
  FieldUtils.isUiOnlyField f

/-- The field list surviving the UI-only filter. -/
def filteredFieldsOf (collection : DirectusCollectionWithFields) :
    List DirectusField :=
  collection.fields.filter (fun f => !isUiOnlyField f)

/-- Whether the filtered field list carries an `id` field. -/
def hasIdFieldOf (collection : DirectusCollectionWithFields) : Bool :=
  (filteredFieldsOf collection).any (fun f => f.field = "id")

/-- The entry strings of the emitted interface block, with the synthetic
optional identifier entry unshifted when no `id` field exists. -/
def fieldEntries (cfg : ZodirectusConfig) (rels : List RelationRec)
    (collection : DirectusCollectionWithFields) : List String :=
  let fields := (filteredFieldsOf collection).map (generateFieldType cfg rels)
  if !hasIdFieldOf collection then "id?: string" :: fields else fields

/-- TypeGenerator.generateType: the base interface and the Create, Update
and Get type aliases. -/
def generateType (cfg : ZodirectusConfig) (rels : List RelationRec)
    (collection : DirectusCollectionWithFields) : String :=
  let typeName := "Drs" ++ toSingular (toPascalCase collection.collection)
  let fieldsString := JsNum.joinSep ";\n  " (fieldEntries cfg rels collection)
  let baseInterface :=
    "export interface " ++ typeName ++ " \x7b\n  " ++ fieldsString ++ ";\n\x7d"
  let createTypeName := typeName ++ "Create"
  let fieldsToOmit :=
    getFieldsToOmitForCreate (filteredFieldsOf collection) (hasIdFieldOf collection)
  let omitFieldsString :=
    JsNum.joinSep " | " (fieldsToOmit.map (fun f => "\x22" ++ f ++ "\x22"))
  let createInterface := "export type " ++ createTypeName ++ " = Omit<" ++
    typeName ++ ", " ++ omitFieldsString ++ ">;"
  let updateTypeName := typeName ++ "Update"
  let updateInterface := "export type " ++ updateTypeName ++ " = Partial<" ++
    typeName ++ "> & Required<Pick<" ++ typeName ++ ", \x22id\x22>>;"
  let getTypeName := typeName ++ "Get"
  let getInterface := "export type " ++ getTypeName ++ " = " ++ typeName ++ ";"
  baseInterface ++ "\n\n" ++ createInterface ++ "\n\n" ++ updateInterface ++
    "\n\n" ++ getInterface

/-- The field names of the emitted base interface, in order. -/
def baseFieldNames (collection : DirectusCollectionWithFields) : List String :=
  let names := (filteredFieldsOf collection).map (fun f => f.field)
  if !hasIdFieldOf collection then "id" :: names else names

/-- The field names surviving the `Omit` of the Create alias. -/
def createFieldNames (collection : DirectusCollectionWithFields) : List String :=
  let omitted :=
    getFieldsToOmitForCreate (filteredFieldsOf collection) (hasIdFieldOf collection)
  (baseFieldNames collection).filter (fun n => !omitted.contains n)

end TypeGenerator

namespace JsRegex

/-- Index of the first occurrence of `pat` (as a contiguous run) in the
list, or `none`. -/
def firstIdxAux (pat : List Char) : List Char → Nat → Option Nat
  | [], i => if pat.isEmpty then some i else none
  | c :: rest, i =>
    if pat.isPrefixOf (c :: rest) then some i
    else firstIdxAux pat rest (i + 1)

/-- Index of the first occurrence of `pat` in `cs`. -/
def firstIdx (cs : List Char) (pat : List Char) : Option Nat :=
  firstIdxAux pat cs 0

/-- The largest prefix length `j` of `letters` with `j ≥ 7` whose prefix
ends in `Schema`; this is the greedy backtracking of
`[A-Z][a-zA-Z]*Schema` over a maximal letter run. -/
def findSchemaEnd (letters : List Char) : Option Nat :=
  go letters.length
where
  go : Nat → Option Nat
    | 0 => none
    | j + 1 =>
      if j + 1 ≥ 7 && "Schema".data.isSuffixOf (letters.take (j + 1)) then
        some (j + 1)
      else go j

/-- All matches of the global regex `Drx[A-Z][a-zA-Z]*Schema`, scanning
left to right and resuming after each match, fuelled by the input
length. -/
def matchDrxAux : Nat → List Char → List String
  | 0, _ => []
  | _ + 1, [] => []
  | fuel + 1, c :: rest =>
    if "Drx".data.isPrefixOf (c :: rest) then
      match (c :: rest).drop 3 with
      | a :: arest =>
        if a.isUpper then
          let letters := a :: arest.takeWhile Char.isAlpha
          match findSchemaEnd letters with
          | some j =>
            String.mk ("Drx".data ++ letters.take j) ::
              matchDrxAux fuel ((c :: rest).drop (3 + j))
          | none => matchDrxAux fuel rest
        else matchDrxAux fuel rest
      | [] => matchDrxAux fuel rest
    else matchDrxAux fuel rest

/-- All matches of `Drx[A-Z][a-zA-Z]*Schema` in `s`. -/
def matchDrxSchema (s : String) : List String :=
  matchDrxAux (s.data.length + 1) s.data

/-- All matches of the global regex `Drs[A-Z][a-zA-Z]*` (greedy letter
run), scanning left to right. -/
def matchDrsAux : Nat → List Char → List String
  | 0, _ => []
  | _ + 1, [] => []
  | fuel + 1, c :: rest =>
    if "Drs".data.isPrefixOf (c :: rest) then
      match (c :: rest).drop 3 with
      | a :: arest =>
        if a.isUpper then
          let letters := a :: arest.takeWhile Char.isAlpha
          String.mk ("Drs".data ++ letters) ::
            matchDrsAux fuel ((c :: rest).drop (3 + letters.length))
        else matchDrsAux fuel rest
      | [] => matchDrsAux fuel rest
    else matchDrsAux fuel rest

/-- All matches of `Drs[A-Z][a-zA-Z]*` in `s`. -/
def matchDrs (s : String) : List String :=
  matchDrsAux (s.data.length + 1) s.data

/-- The first match of the non-greedy regex `z\.object\(\{[\s\S]*?\}\)`:
from the first `z.object(\x7b` through the earliest following `\x7d)`. -/
def jsObjectBlock (schema : String) : Option String :=
  match firstIdx schema.data "z.object(\x7b".data with
  | none => none
  | some i =>
    let afterStart := schema.data.drop (i + 10)
    match firstIdx afterStart "\x7d)".data with
    | none => none
    | some j => some (String.mk ((schema.data.drop i).take (10 + j + 2)))

end JsRegex

namespace DependencyUtils

/-- JS `Set.add`: append if not already present. -/
def jsInsert [DecidableEq α] (l : List α) (x : α) : List α :=
  if l.contains x then l else l ++ [x]

/-- Add one extracted reference name to a dependency set, skipping the
Create/Update/Get variants and self-references, exactly as the two
scanning loops of buildDependencyGraph do. -/
def processName (currentCollectionName : String) (deps : List String)
    (singularName : String) : List String :=
  if !JsStr.ends singularName "Create" && !JsStr.ends singularName "Update" &&
      !JsStr.ends singularName "Get" && singularName ≠ currentCollectionName then
    jsInsert deps singularName
  else deps

/-- The dependency set extracted from one artifact: `Drx*Schema` tokens
of the validator text and `Drs*` tokens of the type text. -/
def depsOfResult (r : GeneratedSchema) (currentCollectionName : String) :
    List String :=
  let d1 :=
    match JsStr.optTruthy r.schema with
    | some sch =>
      (JsRegex.matchDrxSchema sch).foldl
        (fun deps m => processName currentCollectionName deps
          (JsStr.replaceFirst (JsStr.replaceFirst m "Drx" "") "Schema" "")) []
    | none => []
  match JsStr.optTruthy r.type with
  | some ty =>
    (JsRegex.matchDrs ty).foldl
      (fun deps m => processName currentCollectionName deps
        (JsStr.replaceFirst m "Drs" "")) d1
  | none => d1

/-- JS `Map.set` on an insertion-ordered association list. -/
def setAssoc : List (String × List String) → String → List String →
    List (String × List String)
  | [], k, v => [(k, v)]
  | (k', v') :: rest, k, v =>
    if k' = k then (k, v) :: rest else (k', v') :: setAssoc rest k v

/-- DependencyUtils.buildDependencyGraph: map each artifact's singular
entity name to its extracted dependency set, keeping only non-empty
sets. -/
def buildDependencyGraph (results : List GeneratedSchema) :
    List (String × List String) :=
  results.foldl
    (fun graph r =>
      let currentCollectionName :=
        StringUtils.toSingular (StringUtils.toPascalCase r.collectionName)
      let dependencies := depsOfResult r currentCollectionName
      if dependencies.length > 0 then setAssoc graph currentCollectionName dependencies
      else graph)
    []

/-- The traversal state of detectCircularDependencies: the visited set,
the explicit recursion stack, and the recorded cycles. -/
structure DfsState where
  visited : List String
  stack : List String
  cycles : List (List String)

/-- Close a cycle: the path from the neighbour's first occurrence through
the current node, with the neighbour appended (JS `indexOf`/`slice`
semantics, including the `-1` slice when the neighbour is absent). -/
def cycleOf (path : List String) (n : String) : List String :=
  if path.contains n then path.drop (path.indexOf n) ++ [n]
  else
    match path.getLast? with
    | some l => [l, n]
    | none => [n]

/-- One visit of the depth-first search: mark the node visited and on the
stack, process each neighbour in order (recursing into unvisited ones,
recording a cycle for on-stack ones), then pop the node. -/
def dfsRun (g : List (String × List String)) :
    Nat → String → List String → DfsState → DfsState
  | 0, _, _, s => s
  | fuel + 1, node, path, s =>
    let s1 : DfsState :=
      { s with visited := node :: s.visited, stack := node :: s.stack }
    let path' := path ++ [node]
    let s2 :=
      ((g.lookup node).getD []).foldl
        (fun (st : DfsState) (n : String) =>
          if st.visited.contains n then
            if st.stack.contains n then
              { st with cycles := st.cycles ++ [cycleOf path' n] }
            else st
          else dfsRun g fuel n path' st)
        s1
    { s2 with stack := s2.stack.erase node }

/-- Every node name occurring in the graph, keys and neighbours alike. -/
def nodeUniverse (g : List (String × List String)) : List String :=
  g.foldr (fun p acc => p.1 :: p.2 ++ acc) []

/-- DependencyUtils.detectCircularDependencies: run the depth-first
search from every unvisited key and collect the recorded cycles.  The
fuel passed to each root call exceeds the number of node occurrences in
the graph, and every recursive call targets a previously unvisited node,
so the recursion never exhausts it (the sufficiency is carried through
the countUnvisitedL lemmas below). -/
def detectCircularDependencies (g : List (String × List String)) :
    List (List String) :=
  let fuel := (nodeUniverse g).length + 1
  ((g.map Prod.fst).foldl
    (fun (s : DfsState) (node : String) =>
      if s.visited.contains node then s else dfsRun g fuel node [] s)
    { visited := [], stack := [], cycles := [] }).cycles

/-- DependencyUtils.isCircularDependency: some recorded cycle contains
both names. -/
def isCircularDependency (collectionA collectionB : String)
    (circularDeps : List (List String)) : Bool :=
  circularDeps.any (fun cycle =>
    cycle.contains collectionA && cycle.contains collectionB)

end DependencyUtils

namespace ImportUtils

/-- The singular entity name of an artifact, as the import generator
recomputes it. -/
def currentSingularOf (r : GeneratedSchema) : String :=
  StringUtils.toSingular (StringUtils.toPascalCase r.collectionName)

/-- ImportUtils.extractRelatedCollections: `Drx*Schema` tokens of the
first `z.object({...})` block (skipping self and the two file schemas)
and `Drs*` tokens of the type text (additionally skipping the
Create/Update/Get variants), deduplicated in first-seen order. -/
def extractRelatedCollections (result : GeneratedSchema) : List String :=
  let fromSchema :=
    match JsStr.optTruthy result.schema with
    | some sch =>
      match JsRegex.jsObjectBlock sch with
      | some fieldDefinitions =>
        (JsRegex.matchDrxSchema fieldDefinitions).foldl
          (fun acc m =>
            let singularName :=
              JsStr.replaceFirst (JsStr.replaceFirst m "Drx" "") "Schema" ""
            if singularName ≠ currentSingularOf result &&
                singularName ≠ "File" && singularName ≠ "ImageFile" then
              DependencyUtils.jsInsert acc singularName
            else acc) []
      | none => []
    | none => []
  match JsStr.optTruthy result.type with
  | some ty =>
    (JsRegex.matchDrs ty).foldl
      (fun acc m =>
        let singularName := JsStr.replaceFirst m "Drs" ""
        if !JsStr.ends singularName "Create" && !JsStr.ends singularName "Update"
            && !JsStr.ends singularName "Get" && singularName ≠ "File" &&
            singularName ≠ "ImageFile" &&
            singularName ≠ currentSingularOf result then
          DependencyUtils.jsInsert acc singularName
        else acc) fromSchema
  | none => fromSchema

/-- Locate the artifact whose (possibly `directus_`-stripped) singular
name matches an extracted reference. -/
def findRelatedCollection (results : List GeneratedSchema)
    (singularName : String) : Option GeneratedSchema :=
  results.find? (fun r =>
    let collectionSingular :=
      StringUtils.toSingular (StringUtils.toPascalCase r.collectionName)
    let collectionNameWithoutPrefix :=
      JsStr.replaceFirst r.collectionName "directus_" ""
    let collectionSingularWithoutPrefix :=
      StringUtils.toSingular (StringUtils.toPascalCase collectionNameWithoutPrefix)
    collectionSingular = singularName ||
      collectionSingularWithoutPrefix = singularName)

/-- The import path chosen for one related entity, by the namespace
status of the current and the related entity. -/
def importPathFor (isSystemCollection isRelatedSystemCollection : Bool)
    (relatedFileName : String) : String :=
  if isSystemCollection && isRelatedSystemCollection then
    "\x27./" ++ relatedFileName ++ "\x27"
  else if isSystemCollection && !isRelatedSystemCollection then
    "\x27../" ++ relatedFileName ++ "\x27"
  else if !isSystemCollection && isRelatedSystemCollection then
    "\x27./system/" ++ relatedFileName ++ "\x27"
  else "\x27./" ++ relatedFileName ++ "\x27"

/-- Process the extracted references in order, skipping duplicates by
their schema-name/file-name key and emitting one import line each
(circular and non-circular references emit the same line text). -/
def importLinesAux (result : GeneratedSchema) (results : List GeneratedSchema)
    (circularDeps : List (List String)) (isSystemCollection : Bool) :
    List String → List String → List String
  | [], _ => []
  | singularName :: rest, processedImports =>
    match findRelatedCollection results singularName with
    | none => importLinesAux result results circularDeps isSystemCollection rest
        processedImports
    | some relatedCollection =>
      let relatedFileName := StringUtils.toKebabCase relatedCollection.collectionName
      let isRelatedSystemCollection :=
        JsStr.starts relatedCollection.collectionName "directus_"
      let baseSingularName := JsStr.replaceFirst singularName "Directus" ""
      let schemaName :=
        if isRelatedSystemCollection then
          "DrxDirectus" ++ baseSingularName ++ "Schema"
        else "Drx" ++ baseSingularName ++ "Schema"
      let typeName :=
        if isRelatedSystemCollection then "DrsDirectus" ++ baseSingularName
        else "Drs" ++ baseSingularName
      let currentCollectionName := currentSingularOf result
      let _isCircular := DependencyUtils.isCircularDependency
        currentCollectionName singularName circularDeps
      let importKey := schemaName ++ ":" ++ relatedFileName
      if processedImports.contains importKey then
        importLinesAux result results circularDeps isSystemCollection rest
          processedImports
      else
        let importPath :=
          importPathFor isSystemCollection isRelatedSystemCollection relatedFileName
        ("import \x7b " ++ schemaName ++ ", type " ++ typeName ++ " \x7d from "
            ++ importPath ++ ";\n") ::
          importLinesAux result results circularDeps isSystemCollection rest
            (importKey :: processedImports)

/-- ImportUtils.generateImportStatements as the list of emitted lines. -/
def generateImportLines (result : GeneratedSchema)
    (results : List GeneratedSchema) (circularDeps : List (List String))
    (isSystemCollection : Bool) : List String :=
  importLinesAux result results circularDeps isSystemCollection
    (extractRelatedCollections result) []

/-- ImportUtils.generateImportStatements: the concatenated import
lines. -/
def generateImportStatements (result : GeneratedSchema)
    (results : List GeneratedSchema) (circularDeps : List (List String))
    (isSystemCollection : Bool) : String :=
  String.join (generateImportLines result results circularDeps isSystemCollection)

end ImportUtils

/-! Concrete descriptors used by witnesses and counterexamples. -/

/-- A plain required name field. -/
def nameField : DirectusField :=
  { field := "name", type := "varchar",
    schema := some { data_type := some "varchar", is_nullable := some false },
    meta := some { required := some true } }

/-- A collection without any `id` field. -/
def itemsCollection : DirectusCollectionWithFields :=
  { collection := "items", fields := [nameField] }

/-- An audit timestamp field. -/
def dateCreatedField : DirectusField :=
  { field := "date_created", type := "timestamp",
    schema := some { data_type := some "timestamp", is_nullable := some true },
    meta := some { required := some false } }

/-- A field satisfying both the tag predicate (special `cast-json`,
interface `tags`) and the date/time predicate (its name contains
`time`). -/
def tagDateField : DirectusField :=
  { field := "time_tags", type := "varchar",
    schema := some { data_type := some "varchar", is_nullable := some true },
    meta := some { special := some ["cast-json"], interface := some "tags",
                   required := some false } }

/-- A divider field additionally tagged `m2o` (UI-only must win). -/
def dividerM2oField : DirectusField :=
  { field := "divider-main", type := "alias",
    meta := some { special := some ["m2o"], interface := some "divider" } }

/-! Theorems for the specification claims. -/

/-- C9: toSingular applied to `DirectusPolicies` preserves the reserved
`Directus` prefix and singularizes the trailing segment with the
`-ies` to `-y` sub-rule, yielding `DirectusPolicy`. -/
theorem toSingular_directusPolicies :
    StringUtils.toSingular "DirectusPolicies" = "DirectusPolicy" ∧
    StringUtils.toSingular "DirectusPolicies" = "Directus" ++ "Policy" := by
  constructor <;> decide

/-- C10: filterCollections never returns a collection named `Dialogues`,
`Expert_System`, `Models` or `settings`, whatever the configuration. -/
theorem filterCollections_excludes_folder_names
    (collections : List DirectusCollectionWithFields)
    (config : ZodirectusConfig) (c : DirectusCollectionWithFields)
    (hc : c ∈ CollectionUtils.filterCollections collections config) :
    c.collection ≠ "Dialogues" ∧ c.collection ≠ "Expert_System" ∧
    c.collection ≠ "Models" ∧ c.collection ≠ "settings" := by
  have h := (List.mem_filter.mp hc).2
  have h2 : c.collection ∉ CollectionUtils.foldersToFilter := by
    simpa using h
  simp only [CollectionUtils.foldersToFilter, List.mem_cons,
    List.mem_singleton, List.not_mem_nil, not_or] at h2
  exact ⟨h2.1, h2.2.1, h2.2.2.1, h2.2.2.2.1⟩

/-- Witness for C10: a requested `Dialogues` collection is still dropped
while an ordinary collection passes through. -/
theorem filterCollections_excludes_folder_names_witness :
    (⟨"posts", []⟩ : DirectusCollectionWithFields) ∈
      CollectionUtils.filterCollections
        [⟨"posts", []⟩, ⟨"Dialogues", []⟩]
        { collections := some ["posts", "Dialogues"] } ∧
    (⟨"posts", []⟩ : DirectusCollectionWithFields).collection ≠ "Dialogues" := by
  have hmem : (⟨"posts", []⟩ : DirectusCollectionWithFields) ∈
      CollectionUtils.filterCollections
        [⟨"posts", []⟩, ⟨"Dialogues", []⟩]
        { collections := some ["posts", "Dialogues"] } := by
    show (⟨"posts", []⟩ : DirectusCollectionWithFields) ∈
      [(⟨"posts", []⟩ : DirectusCollectionWithFields)]
    exact List.mem_singleton.mpr rfl
  exact ⟨hmem,
    (filterCollections_excludes_folder_names _ _ _ hmem).1⟩

/-- C5: the Create-variant omission list of both generators always
contains `id`, and contains an audit field of the fixed set exactly when
a field of that name is present. -/
theorem fieldsToOmitForCreate_spec (fields : List DirectusField)
    (hasIdField : Bool) :
    "id" ∈ ZodGenerator.getFieldsToOmitForCreate fields hasIdField ∧
    "id" ∈ TypeGenerator.getFieldsToOmitForCreate fields hasIdField ∧
    ∀ sf ∈ (["user_created", "date_created", "user_updated",
        "date_updated"] : List String),
      (sf ∈ ZodGenerator.getFieldsToOmitForCreate fields hasIdField ↔
        ∃ f ∈ fields, f.field = sf) ∧
      (sf ∈ TypeGenerator.getFieldsToOmitForCreate fields hasIdField ↔
        ∃ f ∈ fields, f.field = sf) := by
  refine ⟨List.mem_cons_self _ _, List.mem_cons_self _ _, ?_⟩
  intro sf hsf
  fin_cases hsf <;>
    constructor <;>
    simp [ZodGenerator.getFieldsToOmitForCreate,
      TypeGenerator.getFieldsToOmitForCreate, List.mem_filter,
      List.any_eq_true]

/-- Witness for C5: a collection carrying `date_created` lists it in the
omission set, and `id` is always listed. -/
theorem fieldsToOmitForCreate_spec_witness :
    "id" ∈ ZodGenerator.getFieldsToOmitForCreate [dateCreatedField] true ∧
    ("date_created" ∈
        ZodGenerator.getFieldsToOmitForCreate [dateCreatedField] true ↔
      ∃ f ∈ [dateCreatedField], f.field = "date_created") :=
  ⟨(fieldsToOmitForCreate_spec [dateCreatedField] true).1,
    ((fieldsToOmitForCreate_spec [dateCreatedField] true).2.2 "date_created"
      (by decide)).1⟩

/-- C6: for a nullable non-required field the emitted validator entry is
the base expression with `.nullable()` applied first and `.optional()`
after it; for a non-nullable non-required field `.optional()` alone is
applied. -/
theorem generateFieldSchema_modifier_order (cfg : ZodirectusConfig)
    (rels : List RelationRec) (f : DirectusField)
    (hreq : (f.meta.bind (·.required)).getD false = false) :
    ((f.schema.bind (·.is_nullable)).getD true = true →
      ZodGenerator.generateFieldSchema cfg rels f =
        ((f.field ++ ": " ++ ZodGenerator.getZodType cfg rels f) ++
          ".nullable()") ++ ".optional()") ∧
    ((f.schema.bind (·.is_nullable)).getD true = false →
      ZodGenerator.generateFieldSchema cfg rels f =
        (f.field ++ ": " ++ ZodGenerator.getZodType cfg rels f) ++
          ".optional()") := by
  constructor <;> intro hnul <;>
    simp [ZodGenerator.generateFieldSchema, hreq, hnul]

/-- Witness for C6: both modifier cases at concrete fields. -/
theorem generateFieldSchema_modifier_order_witness :
    ZodGenerator.generateFieldSchema {} [] tagDateField =
      (("time_tags" ++ ": " ++ ZodGenerator.getZodType {} [] tagDateField) ++
        ".nullable()") ++ ".optional()" :=
  (generateFieldSchema_modifier_order {} [] tagDateField rfl).1 rfl

/-- C4: a UI-only (divider/notice) field contributes no entry to either
emitter's output: the validator field entries, the whole validator body
(all four variants) and the whole emitted type text are identical with
and without the field, wherever it sits in the field list and whatever
other tags it carries. -/
theorem uiOnlyField_emits_nothing (cfg : ZodirectusConfig)
    (zrels trels : List RelationRec) (name : String)
    (l1 l2 : List DirectusField) (f : DirectusField)
    (hf : FieldUtils.isUiOnlyField f = true) :
    ZodGenerator.fieldEntries cfg zrels ⟨name, l1 ++ f :: l2⟩ =
      ZodGenerator.fieldEntries cfg zrels ⟨name, l1 ++ l2⟩ ∧
    (∀ b, ZodGenerator.generateSchemaBody cfg zrels ⟨name, l1 ++ f :: l2⟩ b =
      ZodGenerator.generateSchemaBody cfg zrels ⟨name, l1 ++ l2⟩ b) ∧
    TypeGenerator.fieldEntries cfg trels ⟨name, l1 ++ f :: l2⟩ =
      TypeGenerator.fieldEntries cfg trels ⟨name, l1 ++ l2⟩ ∧
    TypeGenerator.generateType cfg trels ⟨name, l1 ++ f :: l2⟩ =
      TypeGenerator.generateType cfg trels ⟨name, l1 ++ l2⟩ := by
  have hz : ZodGenerator.filteredFieldsOf ⟨name, l1 ++ f :: l2⟩ =
      ZodGenerator.filteredFieldsOf ⟨name, l1 ++ l2⟩ := by
    simp [ZodGenerator.filteredFieldsOf, ZodGenerator.isUiOnlyField,
      List.filter_append, List.filter_cons, hf]
  have ht : TypeGenerator.filteredFieldsOf ⟨name, l1 ++ f :: l2⟩ =
      TypeGenerator.filteredFieldsOf ⟨name, l1 ++ l2⟩ := by
    simp [TypeGenerator.filteredFieldsOf, TypeGenerator.isUiOnlyField,
      List.filter_append, List.filter_cons, hf]
  refine ⟨?_, ?_, ?_, ?_⟩
  · simp only [ZodGenerator.fieldEntries, ZodGenerator.hasIdFieldOf, hz]
  · intro b
    simp only [ZodGenerator.generateSchemaBody, ZodGenerator.fieldEntries,
      ZodGenerator.hasIdFieldOf, ZodGenerator.singularNameOf, hz]
  · simp only [TypeGenerator.fieldEntries, TypeGenerator.hasIdFieldOf, ht]
  · simp only [TypeGenerator.generateType, TypeGenerator.fieldEntries,
      TypeGenerator.hasIdFieldOf, ht]

/-- Witness for C4: a divider field carrying an `m2o` tag is dropped from
both outputs. -/
theorem uiOnlyField_emits_nothing_witness :
    FieldUtils.isUiOnlyField dividerM2oField = true ∧
    ZodGenerator.fieldEntries {} [] ⟨"items", [] ++ dividerM2oField :: [nameField]⟩ =
      ZodGenerator.fieldEntries {} [] ⟨"items", [] ++ [nameField]⟩ :=
  ⟨by decide,
    (uiOnlyField_emits_nothing {} [] [] "items" [] [nameField] dividerM2oField
      (by decide)).1⟩

/-- C3 (counterexample): for a collection without an `id` field the
synthetic identifier is inserted first, but the Create variant omits it
(`id` is always in the omission list), so it is not included in every
variant as claimed. -/
theorem synthetic_id_not_in_create_variant :
    (∀ f ∈ itemsCollection.fields, f.field ≠ "id") ∧
    (ZodGenerator.fieldEntries {} [] itemsCollection).head? =
      some "id: z.string().uuid().optional()" ∧
    "id" ∈ ZodGenerator.baseFieldNames itemsCollection ∧
    "id" ∉ ZodGenerator.createFieldNames itemsCollection ∧
    "id" ∉ TypeGenerator.createFieldNames itemsCollection := by
  refine ⟨by decide, ?_, by decide, by decide, by decide⟩
  rfl

/-- C3 (amended): for a collection without an `id` field both emitters
insert the synthetic optional identifier as the first emitted entry; it
appears in the base, update and get variants, while the create variant
always names it in its omission list and therefore excludes it. -/
theorem synthetic_id_field_spec (cfg : ZodirectusConfig)
    (zrels trels : List RelationRec)
    (collection : DirectusCollectionWithFields)
    (hno : ∀ f ∈ collection.fields, f.field ≠ "id") :
    (ZodGenerator.fieldEntries cfg zrels collection).head? =
      some "id: z.string().uuid().optional()" ∧
    (TypeGenerator.fieldEntries cfg trels collection).head? =
      some "id?: string" ∧
    "id" ∈ ZodGenerator.baseFieldNames collection ∧
    "id" ∈ ZodGenerator.updateFieldNames collection ∧
    "id" ∈ ZodGenerator.getFieldNames collection ∧
    "id" ∈ ZodGenerator.getFieldsToOmitForCreate
      (ZodGenerator.filteredFieldsOf collection)
      (ZodGenerator.hasIdFieldOf collection) ∧
    "id" ∉ ZodGenerator.createFieldNames collection ∧
    "id" ∈ TypeGenerator.baseFieldNames collection ∧
    "id" ∉ TypeGenerator.createFieldNames collection := by
  have hzid : ZodGenerator.hasIdFieldOf collection = false := by
    simp only [ZodGenerator.hasIdFieldOf, ZodGenerator.filteredFieldsOf,
      List.any_eq_false]
    intro f hf
    have := hno f (List.mem_filter.mp hf).1
    simpa using this
  have htid : TypeGenerator.hasIdFieldOf collection = false := by
    simp only [TypeGenerator.hasIdFieldOf, TypeGenerator.filteredFieldsOf,
      List.any_eq_false]
    intro f hf
    have := hno f (List.mem_filter.mp hf).1
    simpa using this
  have homit : "id" ∈ ZodGenerator.getFieldsToOmitForCreate
      (ZodGenerator.filteredFieldsOf collection)
      (ZodGenerator.hasIdFieldOf collection) := List.mem_cons_self _ _
  refine ⟨?_, ?_, ?_, ?_, ?_, homit, ?_, ?_, ?_⟩
  · simp [ZodGenerator.fieldEntries, hzid]
  · simp [TypeGenerator.fieldEntries, htid]
  · simp [ZodGenerator.baseFieldNames, hzid]
  · simp [ZodGenerator.updateFieldNames, ZodGenerator.baseFieldNames, hzid]
  · simp [ZodGenerator.getFieldNames, ZodGenerator.baseFieldNames, hzid]
  · intro hmem
    have := (List.mem_filter.mp hmem).2
    simp [ZodGenerator.getFieldsToOmitForCreate] at this
  · simp [TypeGenerator.baseFieldNames, htid]
  · intro hmem
    have := (List.mem_filter.mp hmem).2
    simp [TypeGenerator.getFieldsToOmitForCreate] at this

/-- Witness for C3 (amended) at the concrete id-less collection. -/
theorem synthetic_id_field_spec_witness :
    (∀ f ∈ itemsCollection.fields, f.field ≠ "id") ∧
    (TypeGenerator.fieldEntries {} [] itemsCollection).head? =
      some "id?: string" :=
  ⟨by decide,
    (synthetic_id_field_spec {} [] [] itemsCollection (by decide)).2.1⟩

/-- C1 (counterexample): a field satisfying both the tag predicate and
the date/time predicate is classified DateTime by both chains, because
the tag check sits after the DateTime check; its emitted expressions are
the DateTime ones, not the tag ones. -/
theorem tag_datetime_field_emits_datetime :
    ZodGenerator.isTagField tagDateField = true ∧
    ZodGenerator.isDateTimeField tagDateField = true ∧
    ZodGenerator.getZodType {} [] tagDateField = "z.string().datetime()" ∧
    ZodGenerator.generateTagSchema tagDateField = "z.array(z.string())" ∧
    ZodGenerator.getZodType {} [] tagDateField ≠
      ZodGenerator.generateTagSchema tagDateField ∧
    TypeGenerator.isTagField tagDateField = true ∧
    TypeGenerator.isDateTimeField tagDateField = true ∧
    TypeGenerator.getTypeScriptType {} [] tagDateField = "string" ∧
    TypeGenerator.generateTagType tagDateField = "string[]" ∧
    TypeGenerator.getTypeScriptType {} [] tagDateField ≠
      TypeGenerator.generateTagType tagDateField := by
  refine ⟨by decide, by decide, by decide, by decide, by decide,
    by decide, by decide, by decide, by decide, by decide⟩

/-- C1 (amended): among the UI-specific kinds only radio,
dropdown-multiple and checkbox-tree are checked before DateTime; for a
non-file field matching one of those three, both chains emit the
UI-specific expressions even when the DateTime predicate also holds,
while a non-file field matching the DateTime predicate and none of those
three always emits the DateTime expressions, even when the tag,
autocomplete or repeater predicate also holds. -/
theorem classification_chain_order (cfg : ZodirectusConfig)
    (rels : List RelationRec) (f : DirectusField)
    (hfile : ZodGenerator.isFileField f = false) :
    (ZodGenerator.isRadioButtonField f = true →
      ZodGenerator.getZodType cfg rels f =
        ZodGenerator.generateRadioButtonSchema f ∧
      TypeGenerator.getTypeScriptType cfg rels f =
        TypeGenerator.generateRadioButtonType f) ∧
    (ZodGenerator.isDropdownMultipleField f = true →
      ZodGenerator.getZodType cfg rels f =
        ZodGenerator.generateDropdownMultipleSchema f ∧
      TypeGenerator.getTypeScriptType cfg rels f =
        TypeGenerator.generateDropdownMultipleType f) ∧
    (ZodGenerator.isCheckboxTreeField f = true →
      ZodGenerator.getZodType cfg rels f =
        ZodGenerator.generateCheckboxTreeSchema f ∧
      TypeGenerator.getTypeScriptType cfg rels f =
        TypeGenerator.generateCheckboxTreeType f) ∧
    (ZodGenerator.isDateTimeField f = true →
      ZodGenerator.isRadioButtonField f = false →
      ZodGenerator.isDropdownMultipleField f = false →
      ZodGenerator.isCheckboxTreeField f = false →
      ZodGenerator.getZodType cfg rels f =
        ZodGenerator.generateDateTimeSchema f ∧
      TypeGenerator.getTypeScriptType cfg rels f =
        TypeGenerator.generateDateTimeType f) := by
  have hfile' : TypeGenerator.isFileField f = false := hfile
  refine ⟨?_, ?_, ?_, ?_⟩
  · intro hradio
    constructor
    · simp [ZodGenerator.getZodType, hfile, hradio]
    · simp [TypeGenerator.getTypeScriptType, hfile', hradio,
        show TypeGenerator.isRadioButtonField f = true from hradio]
  · intro hdrop
    have hradio : ZodGenerator.isRadioButtonField f = false := by
      simp only [ZodGenerator.isDropdownMultipleField,
        decide_eq_true_eq] at hdrop
      simp [ZodGenerator.isRadioButtonField, hdrop]
    constructor
    · simp [ZodGenerator.getZodType, hfile, hradio, hdrop]
    · simp [TypeGenerator.getTypeScriptType, hfile',
        show TypeGenerator.isRadioButtonField f = false from hradio,
        show TypeGenerator.isDropdownMultipleField f = true from hdrop]
  · intro htree
    have hiface : f.interfaceOf = "select-multiple-checkbox-tree" := by
      simpa [ZodGenerator.isCheckboxTreeField] using htree
    have hradio : ZodGenerator.isRadioButtonField f = false := by
      simp [ZodGenerator.isRadioButtonField, hiface]
    have hdrop : ZodGenerator.isDropdownMultipleField f = false := by
      simp [ZodGenerator.isDropdownMultipleField, hiface]
    constructor
    · simp [ZodGenerator.getZodType, hfile, hradio, hdrop, htree]
    · simp [TypeGenerator.getTypeScriptType, hfile',
        show TypeGenerator.isRadioButtonField f = false from hradio,
        show TypeGenerator.isDropdownMultipleField f = false from hdrop,
        show TypeGenerator.isCheckboxTreeField f = true from htree]
  · intro hdt hradio hdrop htree
    constructor
    · simp [ZodGenerator.getZodType, hfile, hradio, hdrop, htree, hdt]
    · simp [TypeGenerator.getTypeScriptType, hfile',
        show TypeGenerator.isRadioButtonField f = false from hradio,
        show TypeGenerator.isDropdownMultipleField f = false from hdrop,
        show TypeGenerator.isCheckboxTreeField f = false from htree,
        show TypeGenerator.isDateTimeField f = true from hdt]

/-- Witness for C1 (amended): the tag-and-datetime field takes the
DateTime branch of both chains. -/
theorem classification_chain_order_witness :
    ZodGenerator.isFileField tagDateField = false ∧
    ZodGenerator.getZodType {} [] tagDateField =
      ZodGenerator.generateDateTimeSchema tagDateField ∧
    TypeGenerator.getTypeScriptType {} [] tagDateField =
      TypeGenerator.generateDateTimeType tagDateField := by
  refine ⟨by decide, ?_, ?_⟩
  · exact ((classification_chain_order {} [] tagDateField (by decide)).2.2.2
      (by decide) (by decide) (by decide) (by decide)).1
  · exact ((classification_chain_order {} [] tagDateField (by decide)).2.2.2
      (by decide) (by decide) (by decide) (by decide)).2

/-- The reference-name filter of the dependency scanner, as a
predicate. -/
def depNameOk (currentCollectionName d : String) : Prop :=
  JsStr.ends d "Create" = false ∧ JsStr.ends d "Update" = false ∧
    JsStr.ends d "Get" = false ∧ d ≠ currentCollectionName

theorem mem_jsInsert {l : List String} {x d : String}
    (h : d ∈ DependencyUtils.jsInsert l x) : d ∈ l ∨ d = x := by
  unfold DependencyUtils.jsInsert at h
  split at h
  · exact Or.inl h
  · rcases List.mem_append.mp h with h' | h'
    · exact Or.inl h'
    · exact Or.inr (List.mem_singleton.mp h')

theorem mem_processName {cur sing d : String} {deps : List String}
    (h : d ∈ DependencyUtils.processName cur deps sing) :
    d ∈ deps ∨ depNameOk cur d := by
  unfold DependencyUtils.processName at h
  split at h
  · rcases mem_jsInsert h with h' | h'
    · exact Or.inl h'
    · subst h'
      rename_i hcond
      simp only [Bool.and_eq_true, Bool.not_eq_true', decide_eq_true_eq] at hcond
      exact Or.inr ⟨hcond.1.1.1, hcond.1.1.2, hcond.1.2, hcond.2⟩
  · exact Or.inl h

theorem mem_foldl_processName {cur d : String} (tr : String → String) :
    ∀ (ms : List String) (deps0 : List String),
      d ∈ ms.foldl (fun deps m => DependencyUtils.processName cur deps (tr m)) deps0 →
      d ∈ deps0 ∨ depNameOk cur d := by
  intro ms
  induction ms with
  | nil => intro deps0 h; exact Or.inl h
  | cons m rest ih =>
    intro deps0 h
    rcases ih _ h with h' | h'
    · rcases mem_processName h' with h'' | h''
      · exact Or.inl h''
      · exact Or.inr h''
    · exact Or.inr h'

theorem mem_depsOfResult {r : GeneratedSchema} {cur d : String}
    (h : d ∈ DependencyUtils.depsOfResult r cur) : depNameOk cur d := by
  unfold DependencyUtils.depsOfResult at h
  dsimp only at h
  have hd1 : ∀ x, x ∈ (match JsStr.optTruthy r.schema with
      | some sch =>
        (JsRegex.matchDrxSchema sch).foldl
          (fun deps m => DependencyUtils.processName cur deps
            (JsStr.replaceFirst (JsStr.replaceFirst m "Drx" "") "Schema" "")) []
      | none => ([] : List String)) → depNameOk cur x := by
    intro x hx
    rcases hs : JsStr.optTruthy r.schema with _ | sch
    · rw [hs] at hx
      simp at hx
    · rw [hs] at hx
      rcases mem_foldl_processName
        (fun m => JsStr.replaceFirst (JsStr.replaceFirst m "Drx" "") "Schema" "")
        _ _ hx with h' | h'
      · simp at h'
      · exact h'
  rcases ht : JsStr.optTruthy r.type with _ | ty
  · rw [ht] at h
    exact hd1 d h
  · rw [ht] at h
    rcases mem_foldl_processName (fun m => JsStr.replaceFirst m "Drs" "")
      _ _ h with h' | h'
    · exact hd1 d h'
    · exact h'

theorem mem_setAssoc {g : List (String × List String)}
    {k n : String} {v ds : List String}
    (h : (n, ds) ∈ DependencyUtils.setAssoc g k v) :
    (n, ds) ∈ g ∨ (n = k ∧ ds = v) := by
  induction g with
  | nil =>
    simp only [DependencyUtils.setAssoc, List.mem_singleton] at h
    exact Or.inr ⟨congrArg Prod.fst h, congrArg Prod.snd h⟩
  | cons p rest ih =>
    unfold DependencyUtils.setAssoc at h
    split at h
    · rcases List.mem_cons.mp h with h' | h'
      · exact Or.inr ⟨congrArg Prod.fst h', congrArg Prod.snd h'⟩
      · exact Or.inl (List.mem_cons_of_mem _ h')
    · rcases List.mem_cons.mp h with h' | h'
      · exact Or.inl (h' ▸ List.mem_cons_self _ _)
      · rcases ih h' with h'' | h''
        · exact Or.inl (List.mem_cons_of_mem _ h'')
        · exact Or.inr h''

/-- C2 (amended): every name in a dependency set of buildDependencyGraph
is free of the Create/Update/Get variant suffixes and differs from the
owning entity's own singular name (the two auxiliary file entities are
excluded only by the import extractor, not here). -/
theorem dependencyGraph_excludes_self_and_variants
    (results : List GeneratedSchema) (name : String) (deps : List String)
    (hmem : (name, deps) ∈ DependencyUtils.buildDependencyGraph results)
    (d : String) (hd : d ∈ deps) :
    JsStr.ends d "Create" = false ∧ JsStr.ends d "Update" = false ∧
    JsStr.ends d "Get" = false ∧ d ≠ name := by
  suffices h : ∀ (rs : List GeneratedSchema) (acc : List (String × List String)),
      (∀ p ∈ acc, ∀ x ∈ p.2, depNameOk p.1 x) →
      ∀ p ∈ rs.foldl
        (fun graph r =>
          let currentCollectionName :=
            StringUtils.toSingular (StringUtils.toPascalCase r.collectionName)
          let dependencies := DependencyUtils.depsOfResult r currentCollectionName
          if dependencies.length > 0 then
            DependencyUtils.setAssoc graph currentCollectionName dependencies
          else graph) acc,
      ∀ x ∈ p.2, depNameOk p.1 x by
    exact h results [] (by simp) (name, deps) hmem d hd
  intro rs
  induction rs with
  | nil => intro acc hacc p hp; exact hacc p hp
  | cons r rest ih =>
    intro acc hacc p hp
    refine ih _ ?_ p hp
    intro q hq x hx
    dsimp only at hq
    split at hq
    · rcases mem_setAssoc hq with h' | h'
      · exact hacc q h' x hx
      · rcases q with ⟨qn, qd⟩
        cases h'.1
        cases h'.2
        exact mem_depsOfResult hx
    · exact hacc q hq x hx

/-- Witness for C2 (amended) on a concrete artifact. -/
theorem dependencyGraph_excludes_self_and_variants_witness :
    ("Post", ["File", "User"]) ∈ DependencyUtils.buildDependencyGraph
      [{ collectionName := "posts",
         schema := some "DrxFileSchema DrxUserSchema DrxPostSchema DrxUserCreateSchema" }] ∧
    JsStr.ends "User" "Create" = false ∧ "User" ≠ "Post" := by
  have hmem : ("Post", ["File", "User"]) ∈ DependencyUtils.buildDependencyGraph
      [{ collectionName := "posts",
         schema := some "DrxFileSchema DrxUserSchema DrxPostSchema DrxUserCreateSchema" }] := by
    have : DependencyUtils.buildDependencyGraph
        [{ collectionName := "posts",
           schema := some "DrxFileSchema DrxUserSchema DrxPostSchema DrxUserCreateSchema" }] =
        [("Post", ["File", "User"])] := by decide
    rw [this]
    exact List.mem_singleton.mpr rfl
  have h := dependencyGraph_excludes_self_and_variants _ _ _ hmem "User"
    (by decide)
  exact ⟨hmem, h.1, h.2.2.2⟩

/-- C2 (counterexample): the dependency graph does record the auxiliary
file entity: an artifact referencing `DrxFileSchema` yields a dependency
set containing `File`, contradicting the claimed exclusion. -/
theorem dependencyGraph_contains_file :
    DependencyUtils.buildDependencyGraph
      [{ collectionName := "posts", schema := some "DrxFileSchema" }] =
      [("Post", ["File"])] ∧
    "File" ∈ ((DependencyUtils.buildDependencyGraph
      [{ collectionName := "posts", schema := some "DrxFileSchema" }]).lookup
        "Post").getD [] := by
  constructor <;> decide

/-- The import path the specification's rule prescribes: same namespace
status gives a sibling path, a namespaced importer of a plain target the
parent-relative path, and a plain importer of a namespaced target the
dedicated subfolder path. -/
def specImportPath (isSystemCollection isRelatedSystemCollection : Bool)
    (relatedFileName : String) : String :=
  if isSystemCollection = isRelatedSystemCollection then
    "\x27./" ++ relatedFileName ++ "\x27"
  else if isSystemCollection then "\x27../" ++ relatedFileName ++ "\x27"
  else "\x27./system/" ++ relatedFileName ++ "\x27"

theorem importPathFor_eq_spec (isSys relSys : Bool) (file : String) :
    ImportUtils.importPathFor isSys relSys file = specImportPath isSys relSys file := by
  cases isSys <;> cases relSys <;> rfl

theorem mem_importLinesAux
    (result : GeneratedSchema) (results : List GeneratedSchema)
    (circularDeps : List (List String)) (isSys : Bool) :
    ∀ (names processed : List String) (line : String),
      line ∈ ImportUtils.importLinesAux result results circularDeps isSys
        names processed →
      ∃ (relatedCollection : GeneratedSchema) (schemaName typeName : String),
        relatedCollection ∈ results ∧
        line = "import \x7b " ++ schemaName ++ ", type " ++ typeName ++
          " \x7d from " ++
          specImportPath isSys
            (JsStr.starts relatedCollection.collectionName "directus_")
            (StringUtils.toKebabCase relatedCollection.collectionName) ++
          ";\n" := by
  intro names
  induction names with
  | nil =>
    intro processed line hline
    simp [ImportUtils.importLinesAux] at hline
  | cons singularName rest ih =>
    intro processed line hline
    unfold ImportUtils.importLinesAux at hline
    rcases hfind : ImportUtils.findRelatedCollection results singularName
      with _ | rc
    · rw [hfind] at hline
      exact ih _ _ hline
    · rw [hfind] at hline
      dsimp only at hline
      split at hline <;> split at hline <;>
        first
          | exact ih _ _ hline
          | (rcases List.mem_cons.mp hline with h' | h'
             · rw [importPathFor_eq_spec] at h'
               exact ⟨rc, _, _, List.mem_of_find?_eq_some hfind, h'⟩
             · exact ih _ _ h')

/-- C8: every import line emitted by generateImportStatements names a
target artifact of the batch and selects its path by the namespace
status of the current and the target entity: same status gives the
sibling path, system-to-regular the parent-relative path, and
regular-to-system the dedicated subfolder path. -/
theorem importLine_path_selection
    (result : GeneratedSchema) (results : List GeneratedSchema)
    (circularDeps : List (List String)) (isSystemCollection : Bool)
    (line : String)
    (hline : line ∈ ImportUtils.generateImportLines result results
      circularDeps isSystemCollection) :
    ∃ (relatedCollection : GeneratedSchema) (schemaName typeName : String),
      relatedCollection ∈ results ∧
      line = "import \x7b " ++ schemaName ++ ", type " ++ typeName ++
        " \x7d from " ++
        specImportPath isSystemCollection
          (JsStr.starts relatedCollection.collectionName "directus_")
          (StringUtils.toKebabCase relatedCollection.collectionName) ++
        ";\n" :=
  mem_importLinesAux result results circularDeps isSystemCollection _ _ line hline

/-- A root-level artifact referencing a namespaced entity. -/
def postsArtifact : GeneratedSchema :=
  { collectionName := "posts",
    schema := some "export const DrxPostSchema = z.object(\x7b author: DrxDirectusUserSchema \x7d);" }

/-- The artifact batch the import witness runs against. -/
def witnessResults : List GeneratedSchema :=
  [{ collectionName := "directus_users",
     schema := some "export const DrxDirectusUserSchema = z.object(\x7b email: z.string() \x7d);" }]

/-- Witness for C8: a regular collection importing a namespaced one uses
the dedicated subfolder path. -/
theorem importLine_path_selection_witness :
    "import \x7b DrxDirectusUserSchema, type DrsDirectusUser \x7d from \x27./system/directus-users\x27;\n"
      ∈ ImportUtils.generateImportLines postsArtifact witnessResults [] false ∧
    ∃ (relatedCollection : GeneratedSchema) (schemaName typeName : String),
      relatedCollection ∈ witnessResults ∧
      ("import \x7b DrxDirectusUserSchema, type DrsDirectusUser \x7d from \x27./system/directus-users\x27;\n" : String) =
        "import \x7b " ++ schemaName ++ ", type " ++ typeName ++
          " \x7d from " ++
          specImportPath false
            (JsStr.starts relatedCollection.collectionName "directus_")
            (StringUtils.toKebabCase relatedCollection.collectionName) ++
          ";\n" := by
  have hline :
      "import \x7b DrxDirectusUserSchema, type DrsDirectusUser \x7d from \x27./system/directus-users\x27;\n"
        ∈ ImportUtils.generateImportLines postsArtifact witnessResults [] false := by
    decide
  exact ⟨hline,
    importLine_path_selection postsArtifact witnessResults [] false _ hline⟩

namespace DependencyUtils

/-- One neighbour-processing step of the depth-first search, as folded
over the neighbour list inside `dfsRun`. -/
def dfsStep (g : List (String × List String)) (fuel : Nat)
    (path' : List String) (st : DfsState) (n : String) : DfsState :=
  if st.visited.contains n then
    if st.stack.contains n then
      { st with cycles := st.cycles ++ [cycleOf path' n] }
    else st
  else dfsRun g fuel n path' st

theorem dfsRun_zero (g : List (String × List String)) (node : String)
    (path : List String) (s : DfsState) : dfsRun g 0 node path s = s := rfl

theorem dfsRun_succ (g : List (String × List String)) (fuel : Nat)
    (node : String) (path : List String) (s : DfsState) :
    dfsRun g (fuel + 1) node path s =
      (let s2 := ((g.lookup node).getD []).foldl
        (dfsStep g fuel (path ++ [node]))
        { s with visited := node :: s.visited, stack := node :: s.stack }
       { s2 with stack := s2.stack.erase node }) := rfl

theorem dfsRun_stack (g : List (String × List String)) :
    ∀ (fuel : Nat) (node : String) (path : List String) (s : DfsState),
      (dfsRun g fuel node path s).stack = s.stack := by
  intro fuel
  induction fuel with
  | zero => intro node path s; rfl
  | succ n ih =>
    intro node path s
    rw [dfsRun_succ]
    have haux : ∀ (ns : List String) (st : DfsState),
        (ns.foldl (dfsStep g n (path ++ [node])) st).stack = st.stack := by
      intro ns
      induction ns with
      | nil => intro st; rfl
      | cons a as ihs =>
        intro st
        rw [List.foldl_cons, ihs]
        unfold dfsStep
        split
        · split <;> rfl
        · exact ih a (path ++ [node]) st
    simp only [haux]
    exact List.erase_cons_head node s.stack

theorem dfsStep_stack (g : List (String × List String)) (fuel : Nat)
    (path' : List String) (st : DfsState) (n : String) :
    (dfsStep g fuel path' st n).stack = st.stack := by
  unfold dfsStep
  split
  · split <;> rfl
  · exact dfsRun_stack g fuel n path' st

theorem foldl_dfsStep_stack (g : List (String × List String)) (fuel : Nat)
    (path' : List String) :
    ∀ (ns : List String) (st : DfsState),
      (ns.foldl (dfsStep g fuel path') st).stack = st.stack := by
  intro ns
  induction ns with
  | nil => intro st; rfl
  | cons a as ihs =>
    intro st
    rw [List.foldl_cons, ihs, dfsStep_stack]

theorem dfsRun_visited_mono (g : List (String × List String)) :
    ∀ (fuel : Nat) (node : String) (path : List String) (s : DfsState)
      (x : String), x ∈ s.visited → x ∈ (dfsRun g fuel node path s).visited := by
  intro fuel
  induction fuel with
  | zero => intro node path s x hx; exact hx
  | succ n ih =>
    intro node path s x hx
    rw [dfsRun_succ]
    have haux : ∀ (ns : List String) (st : DfsState),
        x ∈ st.visited →
        x ∈ (ns.foldl (dfsStep g n (path ++ [node])) st).visited := by
      intro ns
      induction ns with
      | nil => intro st hst; exact hst
      | cons a as ihs =>
        intro st hst
        rw [List.foldl_cons]
        refine ihs _ ?_
        unfold dfsStep
        split
        · split <;> exact hst
        · exact ih a (path ++ [node]) st x hst
    exact haux _ _ (List.mem_cons_of_mem _ hx)

theorem dfsStep_visited_mono (g : List (String × List String)) (fuel : Nat)
    (path' : List String) (st : DfsState) (n x : String)
    (hx : x ∈ st.visited) : x ∈ (dfsStep g fuel path' st n).visited := by
  unfold dfsStep
  split
  · split <;> exact hx
  · exact dfsRun_visited_mono g fuel n path' st x hx

theorem foldl_dfsStep_visited_mono (g : List (String × List String))
    (fuel : Nat) (path' : List String) :
    ∀ (ns : List String) (st : DfsState) (x : String),
      x ∈ st.visited → x ∈ (ns.foldl (dfsStep g fuel path') st).visited := by
  intro ns
  induction ns with
  | nil => intro st x hx; exact hx
  | cons a as ihs =>
    intro st x hx
    rw [List.foldl_cons]
    exact ihs _ _ (dfsStep_visited_mono g fuel path' st a x hx)

theorem dfsRun_cycles_mono (g : List (String × List String)) :
    ∀ (fuel : Nat) (node : String) (path : List String) (s : DfsState)
      (c : List String), c ∈ s.cycles → c ∈ (dfsRun g fuel node path s).cycles := by
  intro fuel
  induction fuel with
  | zero => intro node path s c hc; exact hc
  | succ n ih =>
    intro node path s c hc
    rw [dfsRun_succ]
    have haux : ∀ (ns : List String) (st : DfsState),
        c ∈ st.cycles →
        c ∈ (ns.foldl (dfsStep g n (path ++ [node])) st).cycles := by
      intro ns
      induction ns with
      | nil => intro st hst; exact hst
      | cons a as ihs =>
        intro st hst
        rw [List.foldl_cons]
        refine ihs _ ?_
        unfold dfsStep
        split
        · split
          · exact List.mem_append_left _ hst
          · exact hst
        · exact ih a (path ++ [node]) st c hst
    exact haux _ _ hc

theorem dfsStep_cycles_mono (g : List (String × List String)) (fuel : Nat)
    (path' : List String) (st : DfsState) (n : String) (c : List String)
    (hc : c ∈ st.cycles) : c ∈ (dfsStep g fuel path' st n).cycles := by
  unfold dfsStep
  split
  · split
    · exact List.mem_append_left _ hc
    · exact hc
  · exact dfsRun_cycles_mono g fuel n path' st c hc

theorem foldl_dfsStep_cycles_mono (g : List (String × List String))
    (fuel : Nat) (path' : List String) :
    ∀ (ns : List String) (st : DfsState) (c : List String),
      c ∈ st.cycles → c ∈ (ns.foldl (dfsStep g fuel path') st).cycles := by
  intro ns
  induction ns with
  | nil => intro st c hc; exact hc
  | cons a as ihs =>
    intro st c hc
    rw [List.foldl_cons]
    exact ihs _ _ (dfsStep_cycles_mono g fuel path' st a c hc)

theorem dfsRun_marks (g : List (String × List String)) (fuel : Nat)
    (node : String) (path : List String) (s : DfsState) (hfuel : 1 ≤ fuel) :
    node ∈ (dfsRun g fuel node path s).visited := by
  cases fuel with
  | zero => omega
  | succ n =>
    rw [dfsRun_succ]
    exact foldl_dfsStep_visited_mono g n _ _ _ node (List.mem_cons_self _ _)

/-- A recorded cycle containing both names and closing on itself. -/
def GoodCycles (a b : String) (cycles : List (List String)) : Prop :=
  ∃ c ∈ cycles, a ∈ c ∧ b ∈ c ∧ c.head? = c.getLast?

theorem goodCycles_symm {a b : String} {cycles : List (List String)}
    (h : GoodCycles a b cycles) : GoodCycles b a cycles := by
  obtain ⟨c, hc, ha, hb, hcl⟩ := h
  exact ⟨c, hc, hb, ha, hcl⟩

theorem goodCycles_mono {a b : String} {cycles cycles' : List (List String)}
    (hsub : ∀ c ∈ cycles, c ∈ cycles') (h : GoodCycles a b cycles) :
    GoodCycles a b cycles' := by
  obtain ⟨c, hc, ha, hb, hcl⟩ := h
  exact ⟨c, hsub c hc, ha, hb, hcl⟩

theorem mem_of_getLast?_eq {l : List String} {a : String}
    (h : l.getLast? = some a) : a ∈ l := by
  have hx : a ∈ l.getLast? := Option.mem_def.mpr h
  obtain ⟨hne, heq⟩ := List.mem_getLast?_eq_getLast hx
  subst heq
  exact List.getLast_mem hne

/-- The cycle closed on an on-path neighbour starts and ends at that
neighbour and passes through the path's last node. -/
theorem cycleOf_spec (path : List String) (a b : String) (ha : a ∈ path)
    (hb : path.getLast? = some b) :
    a ∈ cycleOf path a ∧ b ∈ cycleOf path a ∧
      (cycleOf path a).head? = (cycleOf path a).getLast? := by
  have hcont : path.contains a = true := by simpa using ha
  have hcy : cycleOf path a = path.drop (path.indexOf a) ++ [a] := by
    unfold cycleOf
    rw [hcont]
    simp
  have hlt : path.indexOf a < path.length := List.indexOf_lt_length.mpr ha
  have hdropne : path.drop (path.indexOf a) ≠ [] := by
    intro hemp
    have := List.drop_eq_nil_iff.mp hemp
    omega
  have hhead : (cycleOf path a).head? = some a := by
    rw [hcy]
    have h1 : (path.drop (path.indexOf a) ++ [a]).head? =
        (path.drop (path.indexOf a)).head? := by
      cases hdp : path.drop (path.indexOf a) with
      | nil => exact absurd hdp hdropne
      | cons x xs => rfl
    rw [h1, List.head?_drop]
    rw [List.getElem?_eq_getElem hlt]
    simp [List.getElem_indexOf]
  have hlast : (cycleOf path a).getLast? = some a := by
    rw [hcy]
    exact List.getLast?_concat _
  refine ⟨?_, ?_, ?_⟩
  · rw [hcy]
    exact List.mem_append_right _ (List.mem_singleton.mpr rfl)
  · rw [hcy]
    refine List.mem_append_left _ ?_
    have hsplit : path = path.take (path.indexOf a) ++ path.drop (path.indexOf a) :=
      (List.take_append_drop _ _).symm
    have : (path.take (path.indexOf a) ++ path.drop (path.indexOf a)).getLast? =
        (path.drop (path.indexOf a)).getLast? :=
      List.getLast?_append_of_ne_nil _ hdropne
    rw [← hsplit] at this
    exact mem_of_getLast?_eq (this ▸ hb)
  · rw [hhead, hlast]

/-- Processing a neighbour list that contains an on-stack visited node
records a cycle through the path's last element. -/
theorem foldl_records_cycle (g : List (String × List String)) (fuel : Nat)
    (path' : List String) (a b : String) (hap : a ∈ path')
    (hbl : path'.getLast? = some b) :
    ∀ (ns : List String) (st : DfsState), a ∈ ns → a ∈ st.visited →
      a ∈ st.stack →
      GoodCycles a b (ns.foldl (dfsStep g fuel path') st).cycles := by
  intro ns
  induction ns with
  | nil => intro st hns _ _; exact absurd hns (List.not_mem_nil a)
  | cons x xs ih =>
    intro st hns hv hs
    rw [List.foldl_cons]
    by_cases hxa : x = a
    · subst hxa
      have hstep : dfsStep g fuel path' st x =
          { st with cycles := st.cycles ++ [cycleOf path' x] } := by
        unfold dfsStep
        rw [if_pos (by simpa using hv), if_pos (by simpa using hs)]
      rw [hstep]
      refine goodCycles_mono (foldl_dfsStep_cycles_mono g fuel path' xs _) ?_
      obtain ⟨h1, h2, h3⟩ := cycleOf_spec path' x b hap hbl
      exact ⟨cycleOf path' x,
        List.mem_append_right _ (List.mem_singleton.mpr rfl), h1, h2, h3⟩
    · have hxs : a ∈ xs := by
        rcases List.mem_cons.mp hns with h | h
        · exact absurd h.symm hxa
        · exact h
      refine ih _ hxs ?_ ?_
      · exact dfsStep_visited_mono g fuel path' st x a hv
      · rw [dfsStep_stack]
        exact hs

theorem dfsRun_succ_cycles (g : List (String × List String)) (fuel : Nat)
    (node : String) (path : List String) (s : DfsState) :
    (dfsRun g (fuel + 1) node path s).cycles =
      (((g.lookup node).getD []).foldl (dfsStep g fuel (path ++ [node]))
        { s with visited := node :: s.visited, stack := node :: s.stack }).cycles :=
  rfl

theorem dfsRun_succ_visited (g : List (String × List String)) (fuel : Nat)
    (node : String) (path : List String) (s : DfsState) :
    (dfsRun g (fuel + 1) node path s).visited =
      (((g.lookup node).getD []).foldl (dfsStep g fuel (path ++ [node]))
        { s with visited := node :: s.visited, stack := node :: s.stack }).visited :=
  rfl

/-- If a call of the search transitions `b` from unvisited to visited
while `a` (a neighbour of `b`) is visited and on the recursion stack,
then a cycle through both is recorded. -/
theorem dfsRun_records_on_visit (g : List (String × List String))
    (a b : String) (hedge : a ∈ (g.lookup b).getD []) :
    ∀ (fuel : Nat) (node : String) (path : List String) (st : DfsState),
      a ∈ st.visited → a ∈ st.stack → (∀ x ∈ st.stack, x ∈ path) →
      b ∉ st.visited →
      b ∈ (dfsRun g fuel node path st).visited →
      GoodCycles a b (dfsRun g fuel node path st).cycles := by
  intro fuel
  induction fuel with
  | zero => intro node path st _ _ _ hbn hbv; exact absurd hbv hbn
  | succ n ih =>
    intro node path st hav has hsub hbn hbv
    rw [dfsRun_succ_cycles]
    by_cases hnb : node = b
    · rw [hnb]
      refine foldl_records_cycle g n (path ++ [b]) a b ?_ ?_ _ _ hedge ?_ ?_
      · exact List.mem_append_left _ (hsub a has)
      · exact List.getLast?_concat _
      · exact List.mem_cons_of_mem _ hav
      · exact List.mem_cons_of_mem _ has
    · rw [dfsRun_succ_visited] at hbv
      have haux : ∀ (ns : List String) (st' : DfsState),
          a ∈ st'.visited → a ∈ st'.stack →
          (∀ x ∈ st'.stack, x ∈ path ++ [node]) → b ∉ st'.visited →
          b ∈ (ns.foldl (dfsStep g n (path ++ [node])) st').visited →
          GoodCycles a b (ns.foldl (dfsStep g n (path ++ [node])) st').cycles := by
        intro ns
        induction ns with
        | nil => intro st' _ _ _ hbn' hbv'; exact absurd hbv' hbn'
        | cons x xs ihs =>
          intro st' hav' has' hsub' hbn' hbv'
          rw [List.foldl_cons] at hbv' ⊢
          by_cases hxv : st'.visited.contains x
          · have hstep_v : (dfsStep g n (path ++ [node]) st' x).visited =
                st'.visited := by
              unfold dfsStep
              rw [if_pos hxv]
              split <;> rfl
            refine ihs _ ?_ ?_ ?_ ?_ hbv'
            · rw [hstep_v]; exact hav'
            · rw [dfsStep_stack]; exact has'
            · rw [dfsStep_stack]; exact hsub'
            · rw [hstep_v]; exact hbn'
          · have hstep : dfsStep g n (path ++ [node]) st' x =
                dfsRun g n x (path ++ [node]) st' := by
              unfold dfsStep
              rw [if_neg hxv]
            rw [hstep] at hbv' ⊢
            by_cases hb2 : b ∈ (dfsRun g n x (path ++ [node]) st').visited
            · have hgood := ih x (path ++ [node]) st' hav' has' hsub' hbn' hb2
              exact goodCycles_mono
                (fun c hc => foldl_dfsStep_cycles_mono g n _ xs _ c hc) hgood
            · refine ihs _ ?_ ?_ ?_ hb2 hbv'
              · exact dfsRun_visited_mono g n x _ st' a hav'
              · rw [dfsRun_stack]; exact has'
              · rw [dfsRun_stack]; exact hsub'
      refine haux _ _ (List.mem_cons_of_mem _ hav)
        (List.mem_cons_of_mem _ has) ?_ ?_ hbv
      · intro x hx
        rcases List.mem_cons.mp hx with h | h
        · subst h
          exact List.mem_append_right _ (List.mem_singleton.mpr rfl)
        · exact List.mem_append_left _ (hsub x h)
      · intro hmem
        rcases List.mem_cons.mp hmem with h | h
        · exact hnb h.symm
        · exact hbn h

/-- Number of universe nodes not yet visited; the fuel bound argument of
the termination-sufficiency invariant. -/
def countUnvisitedL (g : List (String × List String)) (visited : List String) :
    Nat :=
  ((nodeUniverse g).toFinset.filter (fun x => x ∉ visited)).card

theorem countUnvisitedL_le (g : List (String × List String))
    {v v' : List String} (h : ∀ x ∈ v, x ∈ v') :
    countUnvisitedL g v' ≤ countUnvisitedL g v := by
  refine Finset.card_le_card ?_
  intro x hx
  rw [Finset.mem_filter] at hx ⊢
  exact ⟨hx.1, fun hmem => hx.2 (h x hmem)⟩

theorem countUnvisitedL_lt (g : List (String × List String))
    {v : List String} {x : String} (hx : x ∈ nodeUniverse g) (hnv : x ∉ v) :
    countUnvisitedL g (x :: v) < countUnvisitedL g v := by
  refine Finset.card_lt_card ?_
  rw [Finset.ssubset_iff_of_subset ?_]
  · exact ⟨x, by
      rw [Finset.mem_filter]
      exact ⟨List.mem_toFinset.mpr hx, hnv⟩, by
      rw [Finset.mem_filter]
      intro hc
      exact hc.2 (List.mem_cons_self _ _)⟩
  · intro y hy
    rw [Finset.mem_filter] at hy ⊢
    exact ⟨hy.1, fun hmem => hy.2 (List.mem_cons_of_mem _ hmem)⟩

theorem mem_lookup_universe :
    ∀ (g : List (String × List String)) (k x : String),
      x ∈ (g.lookup k).getD [] → x ∈ nodeUniverse g := by
  intro g
  induction g with
  | nil => intro k x hx; simp [List.lookup] at hx
  | cons p rest ih =>
    intro k x hx
    rcases p with ⟨pk, pv⟩
    rcases hbeq : k == pk with _ | _
    · simp only [List.lookup, hbeq] at hx
      have := ih k x hx
      unfold nodeUniverse at this ⊢
      simp only [List.foldr] at this ⊢
      exact List.mem_cons_of_mem _ (List.mem_append_right _ this)
    · simp only [List.lookup, hbeq, Option.getD_some] at hx
      unfold nodeUniverse
      simp only [List.foldr]
      exact List.mem_cons_of_mem _ (List.mem_append_left _ hx)

theorem mem_keys_universe :
    ∀ (g : List (String × List String)) (k : String),
      k ∈ g.map Prod.fst → k ∈ nodeUniverse g := by
  intro g
  induction g with
  | nil => intro k hk; simp at hk
  | cons p rest ih =>
    intro k hk
    rcases p with ⟨pk, pv⟩
    unfold nodeUniverse
    simp only [List.foldr]
    rcases List.mem_cons.mp hk with h | h
    · exact h ▸ List.mem_cons_self _ _
    · exact List.mem_cons_of_mem _
        (List.mem_append_right _ (by
          have := ih k h
          unfold nodeUniverse at this
          exact this))

theorem lookup_isSome_mem_keys :
    ∀ (g : List (String × List String)) (k : String) (v : List String),
      g.lookup k = some v → k ∈ g.map Prod.fst := by
  intro g
  induction g with
  | nil => intro k v hk; simp [List.lookup] at hk
  | cons p rest ih =>
    intro k v hk
    rcases p with ⟨pk, pv⟩
    rcases hbeq : k == pk with _ | _
    · simp only [List.lookup, hbeq] at hk
      exact List.mem_cons_of_mem _ (ih k v hk)
    · have : k = pk := by simpa using hbeq
      simp [this]

/-- Processing a neighbour list that contains the unvisited partner `q`
of an on-stack node `p` (with the back edge `p ∈ g[q]`) records a cycle
through both, given enough fuel. -/
theorem foldl_visits_partner (g : List (String × List String)) (p q : String)
    (hedge : p ∈ (g.lookup q).getD []) (fuel : Nat) (path' : List String) :
    ∀ (ns : List String) (st : DfsState), q ∈ ns → p ∈ st.visited →
      p ∈ st.stack → (∀ x ∈ st.stack, x ∈ path') → q ∉ st.visited →
      countUnvisitedL g st.visited < fuel →
      GoodCycles p q (ns.foldl (dfsStep g fuel path') st).cycles := by
  intro ns
  induction ns with
  | nil => intro st hq _ _ _ _ _; exact absurd hq (List.not_mem_nil q)
  | cons x xs ih =>
    intro st hq hpv hps hsub hqnv hcount
    rw [List.foldl_cons]
    have hfuel1 : 1 ≤ fuel := by omega
    by_cases hxv : st.visited.contains x
    · have hxq : x ≠ q := by
        intro h
        subst h
        exact hqnv (by simpa using hxv)
      have hstep_v : (dfsStep g fuel path' st x).visited = st.visited := by
        unfold dfsStep
        rw [if_pos hxv]
        split <;> rfl
      have hqxs : q ∈ xs := by
        rcases List.mem_cons.mp hq with h | h
        · exact absurd h.symm hxq
        · exact h
      refine ih _ hqxs ?_ ?_ ?_ ?_ ?_
      · rw [hstep_v]; exact hpv
      · rw [dfsStep_stack]; exact hps
      · rw [dfsStep_stack]; exact hsub
      · rw [hstep_v]; exact hqnv
      · rw [hstep_v]; exact hcount
    · have hstep : dfsStep g fuel path' st x = dfsRun g fuel x path' st := by
        unfold dfsStep
        rw [if_neg hxv]
      rw [hstep]
      by_cases hxq : x = q
      · have hqmark : q ∈ (dfsRun g fuel x path' st).visited := by
          rw [hxq]
          exact dfsRun_marks g fuel q path' st hfuel1
        have hgood := dfsRun_records_on_visit g p q hedge fuel x path' st
          hpv hps hsub hqnv hqmark
        exact goodCycles_mono
          (fun c hc => foldl_dfsStep_cycles_mono g fuel _ xs _ c hc) hgood
      · by_cases hq2 : q ∈ (dfsRun g fuel x path' st).visited
        · have hgood := dfsRun_records_on_visit g p q hedge fuel x path' st
            hpv hps hsub hqnv hq2
          exact goodCycles_mono
            (fun c hc => foldl_dfsStep_cycles_mono g fuel _ xs _ c hc) hgood
        · have hqxs : q ∈ xs := by
            rcases List.mem_cons.mp hq with h | h
            · exact absurd h.symm hxq
            · exact h
          refine ih _ hqxs ?_ ?_ ?_ hq2 ?_
          · exact dfsRun_visited_mono g fuel x path' st p hpv
          · rw [dfsRun_stack]; exact hps
          · rw [dfsRun_stack]; exact hsub
          · calc countUnvisitedL g (dfsRun g fuel x path' st).visited
                ≤ countUnvisitedL g st.visited :=
                  countUnvisitedL_le g (fun y hy =>
                    dfsRun_visited_mono g fuel x path' st y hy)
              _ < fuel := hcount

/-- When the depth-first search is started on an unvisited node while
both mutually referencing partners are unvisited, and one of them ends
up visited, a cycle through both is recorded. -/
theorem dfsRun_first_of_pair (g : List (String × List String)) (a b : String)
    (hab : a ≠ b) (hedgeAB : b ∈ (g.lookup a).getD [])
    (hedgeBA : a ∈ (g.lookup b).getD []) :
    ∀ (fuel : Nat) (node : String) (path : List String) (st : DfsState),
      countUnvisitedL g st.visited < fuel →
      node ∈ nodeUniverse g → node ∉ st.visited →
      (∀ x ∈ st.stack, x ∈ path) →
      a ∉ st.visited → b ∉ st.visited →
      (a ∈ (dfsRun g fuel node path st).visited ∨
        b ∈ (dfsRun g fuel node path st).visited) →
      GoodCycles a b (dfsRun g fuel node path st).cycles := by
  intro fuel
  induction fuel with
  | zero => intro node path st hcount _ _ _ _ _ _; omega
  | succ n ih =>
    intro node path st hcount huniv hnodev hsub hanv hbnv hdisj
    rw [dfsRun_succ_cycles]
    rw [dfsRun_succ_visited] at hdisj
    have hcount1 : countUnvisitedL g
        (node :: st.visited) < n := by
      have hlt := countUnvisitedL_lt g huniv hnodev
      omega
    have hsub' : ∀ x ∈ node :: st.stack, x ∈ path ++ [node] := by
      intro x hx
      rcases List.mem_cons.mp hx with h | h
      · exact h ▸ List.mem_append_right _ (List.mem_singleton.mpr rfl)
      · exact List.mem_append_left _ (hsub x h)
    by_cases hna : node = a
    · have hbns : b ∈ (g.lookup node).getD [] := by rw [hna]; exact hedgeAB
      refine foldl_visits_partner g a b hedgeBA n (path ++ [node]) _ _
        hbns ?_ ?_ hsub' ?_ hcount1
      · exact hna ▸ List.mem_cons_self _ _
      · exact hna ▸ List.mem_cons_self _ _
      · intro hmem
        rcases List.mem_cons.mp hmem with h | h
        · exact hab (h.trans hna).symm
        · exact hbnv h
    · by_cases hnb : node = b
      · have hans : a ∈ (g.lookup node).getD [] := by rw [hnb]; exact hedgeBA
        refine goodCycles_symm
          (foldl_visits_partner g b a hedgeAB n (path ++ [node]) _ _
            hans ?_ ?_ hsub' ?_ hcount1)
        · exact hnb ▸ List.mem_cons_self _ _
        · exact hnb ▸ List.mem_cons_self _ _
        · intro hmem
          rcases List.mem_cons.mp hmem with h | h
          · exact hna h.symm
          · exact hanv h
      · have hnsuniv : ∀ x ∈ (g.lookup node).getD [], x ∈ nodeUniverse g :=
          fun x hx => mem_lookup_universe g node x hx
      -- fold over the neighbours of an unrelated node
        have haux : ∀ (ns : List String) (st' : DfsState),
            (∀ x ∈ ns, x ∈ nodeUniverse g) →
            a ∉ st'.visited → b ∉ st'.visited →
            (∀ x ∈ st'.stack, x ∈ path ++ [node]) →
            countUnvisitedL g st'.visited < n →
            (a ∈ (ns.foldl (dfsStep g n (path ++ [node])) st').visited ∨
              b ∈ (ns.foldl (dfsStep g n (path ++ [node])) st').visited) →
            GoodCycles a b
              (ns.foldl (dfsStep g n (path ++ [node])) st').cycles := by
          intro ns
          induction ns with
          | nil =>
            intro st' _ hanv' hbnv' _ _ hdisj'
            rcases hdisj' with h | h
            · exact absurd h hanv'
            · exact absurd h hbnv'
          | cons x xs ihs =>
            intro st' hnsu hanv' hbnv' hsub'' hcount' hdisj'
            rw [List.foldl_cons] at hdisj' ⊢
            by_cases hxv : st'.visited.contains x
            · have hstep_v : (dfsStep g n (path ++ [node]) st' x).visited =
                  st'.visited := by
                unfold dfsStep
                rw [if_pos hxv]
                split <;> rfl
              refine ihs _ (fun y hy => hnsu y (List.mem_cons_of_mem _ hy))
                ?_ ?_ ?_ ?_ hdisj'
              · rw [hstep_v]; exact hanv'
              · rw [hstep_v]; exact hbnv'
              · rw [dfsStep_stack]; exact hsub''
              · rw [hstep_v]; exact hcount'
            · have hstep : dfsStep g n (path ++ [node]) st' x =
                  dfsRun g n x (path ++ [node]) st' := by
                unfold dfsStep
                rw [if_neg hxv]
              rw [hstep] at hdisj' ⊢
              by_cases hfirst :
                  a ∈ (dfsRun g n x (path ++ [node]) st').visited ∨
                    b ∈ (dfsRun g n x (path ++ [node]) st').visited
              · have hgood := ih x (path ++ [node]) st' hcount'
                  (hnsu x (List.mem_cons_self _ _))
                  (by simpa using hxv) hsub'' hanv' hbnv' hfirst
                exact goodCycles_mono
                  (fun c hc => foldl_dfsStep_cycles_mono g n _ xs _ c hc) hgood
              · push_neg at hfirst
                refine ihs _ (fun y hy => hnsu y (List.mem_cons_of_mem _ hy))
                  hfirst.1 hfirst.2 ?_ ?_ hdisj'
                · rw [dfsRun_stack]; exact hsub''
                · calc countUnvisitedL g (dfsRun g n x (path ++ [node]) st').visited
                      ≤ countUnvisitedL g st'.visited :=
                        countUnvisitedL_le g (fun y hy =>
                          dfsRun_visited_mono g n x _ st' y hy)
                    _ < n := hcount'
        refine haux _ _ hnsuniv ?_ ?_ hsub' hcount1 hdisj
        · intro hmem
          rcases List.mem_cons.mp hmem with h | h
          · exact hna h.symm
          · exact hanv h
        · intro hmem
          rcases List.mem_cons.mp hmem with h | h
          · exact hnb h.symm
          · exact hbnv h

/-- One step of the root loop of detectCircularDependencies. -/
def rootsStep (g : List (String × List String)) (fuel : Nat)
    (s : DfsState) (node : String) : DfsState :=
  if s.visited.contains node then s else dfsRun g fuel node [] s

theorem detect_eq (g : List (String × List String)) :
    detectCircularDependencies g =
      ((g.map Prod.fst).foldl (rootsStep g ((nodeUniverse g).length + 1))
        { visited := [], stack := [], cycles := [] }).cycles := rfl

theorem rootsStep_stack (g : List (String × List String)) (fuel : Nat)
    (s : DfsState) (node : String) :
    (rootsStep g fuel s node).stack = s.stack := by
  unfold rootsStep
  split
  · rfl
  · exact dfsRun_stack g fuel node [] s

theorem rootsStep_visited_mono (g : List (String × List String)) (fuel : Nat)
    (s : DfsState) (node x : String) (hx : x ∈ s.visited) :
    x ∈ (rootsStep g fuel s node).visited := by
  unfold rootsStep
  split
  · exact hx
  · exact dfsRun_visited_mono g fuel node [] s x hx

theorem rootsStep_cycles_mono (g : List (String × List String)) (fuel : Nat)
    (s : DfsState) (node : String) (c : List String) (hc : c ∈ s.cycles) :
    c ∈ (rootsStep g fuel s node).cycles := by
  unfold rootsStep
  split
  · exact hc
  · exact dfsRun_cycles_mono g fuel node [] s c hc

theorem foldl_rootsStep_visited_mono (g : List (String × List String))
    (fuel : Nat) :
    ∀ (roots : List String) (s : DfsState) (x : String), x ∈ s.visited →
      x ∈ (roots.foldl (rootsStep g fuel) s).visited := by
  intro roots
  induction roots with
  | nil => intro s x hx; exact hx
  | cons r rs ih =>
    intro s x hx
    rw [List.foldl_cons]
    exact ih _ _ (rootsStep_visited_mono g fuel s r x hx)

theorem foldl_rootsStep_cycles_mono (g : List (String × List String))
    (fuel : Nat) :
    ∀ (roots : List String) (s : DfsState) (c : List String), c ∈ s.cycles →
      c ∈ (roots.foldl (rootsStep g fuel) s).cycles := by
  intro roots
  induction roots with
  | nil => intro s c hc; exact hc
  | cons r rs ih =>
    intro s c hc
    rw [List.foldl_cons]
    exact ih _ _ (rootsStep_cycles_mono g fuel s r c hc)

theorem foldl_rootsStep_marks (g : List (String × List String)) (fuel : Nat)
    (hfuel : 1 ≤ fuel) :
    ∀ (roots : List String) (s : DfsState) (r : String), r ∈ roots →
      r ∈ (roots.foldl (rootsStep g fuel) s).visited := by
  intro roots
  induction roots with
  | nil => intro s r hr; exact absurd hr (List.not_mem_nil r)
  | cons x xs ih =>
    intro s r hr
    rw [List.foldl_cons]
    by_cases hxr : x = r
    · subst hxr
      refine foldl_rootsStep_visited_mono g fuel xs _ x ?_
      unfold rootsStep
      split
      · rename_i hvis
        simpa using hvis
      · exact dfsRun_marks g fuel x [] s hfuel
    · rcases List.mem_cons.mp hr with h | h
      · exact absurd h.symm hxr
      · exact ih _ _ h

theorem foldl_rootsStep_finds (g : List (String × List String)) (a b : String)
    (hab : a ≠ b) (hedgeAB : b ∈ (g.lookup a).getD [])
    (hedgeBA : a ∈ (g.lookup b).getD []) (fuel : Nat) :
    ∀ (roots : List String) (s : DfsState),
      (∀ r ∈ roots, r ∈ nodeUniverse g) →
      a ∉ s.visited → b ∉ s.visited → s.stack = [] →
      countUnvisitedL g s.visited < fuel →
      (a ∈ (roots.foldl (rootsStep g fuel) s).visited ∨
        b ∈ (roots.foldl (rootsStep g fuel) s).visited) →
      GoodCycles a b (roots.foldl (rootsStep g fuel) s).cycles := by
  intro roots
  induction roots with
  | nil =>
    intro s _ hanv hbnv _ _ hdisj
    rcases hdisj with h | h
    · exact absurd h hanv
    · exact absurd h hbnv
  | cons r rs ih =>
    intro s hru hanv hbnv hstack hcount hdisj
    rw [List.foldl_cons] at hdisj ⊢
    by_cases hrv : s.visited.contains r
    · have hskip : rootsStep g fuel s r = s := by
        unfold rootsStep
        rw [if_pos hrv]
      rw [hskip] at hdisj ⊢
      exact ih _ (fun y hy => hru y (List.mem_cons_of_mem _ hy))
        hanv hbnv hstack hcount hdisj
    · have hstep : rootsStep g fuel s r = dfsRun g fuel r [] s := by
        unfold rootsStep
        rw [if_neg hrv]
      rw [hstep] at hdisj ⊢
      by_cases hfirst : a ∈ (dfsRun g fuel r [] s).visited ∨
          b ∈ (dfsRun g fuel r [] s).visited
      · have hgood := dfsRun_first_of_pair g a b hab hedgeAB hedgeBA fuel r [] s
          hcount (hru r (List.mem_cons_self _ _)) (by simpa using hrv)
          (by rw [hstack]; intro x hx; exact absurd hx (List.not_mem_nil x))
          hanv hbnv hfirst
        exact goodCycles_mono
          (fun c hc => foldl_rootsStep_cycles_mono g fuel rs _ c hc) hgood
      · push_neg at hfirst
        refine ih _ (fun y hy => hru y (List.mem_cons_of_mem _ hy))
          hfirst.1 hfirst.2 ?_ ?_ hdisj
        · rw [dfsRun_stack]
          exact hstack
        · calc countUnvisitedL g (dfsRun g fuel r [] s).visited
              ≤ countUnvisitedL g s.visited :=
                countUnvisitedL_le g (fun y hy =>
                  dfsRun_visited_mono g fuel r [] s y hy)
            _ < fuel := hcount

end DependencyUtils

/-- C7: a graph in which `User` depends on `Post` and `Post` depends on
`User` yields a recorded cycle containing both names and closing on
itself, and isCircularDependency reports them circular. -/
theorem reciprocal_reference_cycle_detected
    (g : List (String × List String))
    (hU : "Post" ∈ ((g.lookup "User").getD []))
    (hP : "User" ∈ ((g.lookup "Post").getD [])) :
    (∃ c ∈ DependencyUtils.detectCircularDependencies g,
      "User" ∈ c ∧ "Post" ∈ c ∧ c.head? = c.getLast?) ∧
    DependencyUtils.isCircularDependency "User" "Post"
      (DependencyUtils.detectCircularDependencies g) = true := by
  have hUkey : "User" ∈ g.map Prod.fst := by
    rcases hlu : g.lookup "User" with _ | lu
    · rw [hlu] at hU
      exact absurd hU (List.not_mem_nil _)
    · exact DependencyUtils.lookup_isSome_mem_keys g _ _ hlu
  have hcount0 : DependencyUtils.countUnvisitedL g [] <
      (DependencyUtils.nodeUniverse g).length + 1 := by
    have h1 : DependencyUtils.countUnvisitedL g [] ≤
        (DependencyUtils.nodeUniverse g).toFinset.card :=
      Finset.card_filter_le _ _
    have h2 := (DependencyUtils.nodeUniverse g).toFinset_card_le
    omega
  have hmark := DependencyUtils.foldl_rootsStep_marks g
    ((DependencyUtils.nodeUniverse g).length + 1) (by omega)
    (g.map Prod.fst) { visited := [], stack := [], cycles := [] } "User" hUkey
  have hgood := DependencyUtils.foldl_rootsStep_finds g "User" "Post"
    (by decide) hU hP ((DependencyUtils.nodeUniverse g).length + 1)
    (g.map Prod.fst) { visited := [], stack := [], cycles := [] }
    (fun r hr => DependencyUtils.mem_keys_universe g r hr)
    (List.not_mem_nil _) (List.not_mem_nil _) rfl hcount0 (Or.inl hmark)
  rw [DependencyUtils.detect_eq]
  obtain ⟨c, hc, hu, hp, hcl⟩ := hgood
  refine ⟨⟨c, hc, hu, hp, hcl⟩, ?_⟩
  rw [DependencyUtils.isCircularDependency]
  rw [List.any_eq_true]
  refine ⟨c, hc, ?_⟩
  simp [hu, hp]

/-- Witness for C7 at the two-node reciprocal graph. -/
theorem reciprocal_reference_cycle_detected_witness :
    "Post" ∈ ((([("User", ["Post"]), ("Post", ["User"])] :
        List (String × List String)).lookup "User").getD []) ∧
    DependencyUtils.isCircularDependency "User" "Post"
      (DependencyUtils.detectCircularDependencies
        [("User", ["Post"]), ("Post", ["User"])]) = true :=
  ⟨by decide,
    (reciprocal_reference_cycle_detected
      [("User", ["Post"]), ("Post", ["User"])] (by decide) (by decide)).2⟩
